import Mathlib

/-!
Shallow embedding of the noise-gate ingestion, deduplication and
lifecycle-cleanup pipeline (rss-poll and data-cleanup lambdas), together
with theorems settling the specification claims about it.

Conventions of the embedding:
* the DynamoDB tables are lists of records, scanned in list order;
* timestamps are epoch values (`Nat`), with `publishedAt` carried in
  milliseconds as produced by `Date.getTime()`;
* JavaScript `Set` objects are insertion-ordered duplicate-free lists;
* store calls never throw (errors the source code swallows internally are
  not modelled); the one fallible external call, the feed fetch, is an
  explicit oracle returning `Except`.
-/

set_option maxHeartbeats 1000000
set_option maxRecDepth 10000

namespace NoiseGate

/-! ## dedup.ts : title normalisation and similarity matching -/

/-- ASCII word characters, the regex class `\w` used in `normalizeTitle`. -/
def isWordChar (c : Char) : Bool :=
  c.isAlphanum || c = '_'

/-- ASCII whitespace, the regex class `\s` used in `normalizeTitle`. -/
def isSpaceChar (c : Char) : Bool :=
  c = ' ' || c = '\t' || c = '\n' || c = '\r'

/-- The stop-word set of dedup.ts. -/
def STOP_WORDS : List String :=
  ["the", "a", "an", "and", "or", "but", "in", "on", "at", "to", "for",
   "of", "with", "by", "from", "as", "is", "was", "are", "were", "been",
   "be", "have", "has", "had", "do", "does", "did", "will", "would",
   "could", "should", "may", "might", "must", "shall", "can", "need",
   "this", "that", "these", "those", "it", "its", "they", "them",
   "their", "he", "she", "him", "her", "his", "hers", "we", "us", "our",
   "you", "your", "i", "me", "my", "what", "which", "who", "whom",
   "how", "why", "when", "where", "all", "each", "every", "both",
   "few", "more", "most", "other", "some", "such", "no", "nor", "not",
   "only", "own", "same", "so", "than", "too", "very", "just", "also"]

/-- The similarity threshold of dedup.ts (`SIMILARITY_THRESHOLD = 0.6`). -/
def SIMILARITY_THRESHOLD : Rat := 0.6

/-- Collapse every whitespace run to a single space, the effect of
`.replace(/\s+/g, ' ')`; the flag records whether the previous character
belonged to a whitespace run. -/
def collapseWsAux : Bool → List Char → List Char
  | _, [] => []
  | prevSpace, c :: cs =>
    if isSpaceChar c then
      if prevSpace then collapseWsAux true cs
      else ' ' :: collapseWsAux true cs
    else c :: collapseWsAux false cs

/-- Strip whitespace from both ends, the effect of `.trim()`. -/
def trimSpaces (l : List Char) : List Char :=
  ((l.dropWhile isSpaceChar).reverse.dropWhile isSpaceChar).reverse

/-- `normalizeTitle` of dedup.ts: lower-case, strip punctuation, collapse
whitespace, drop short and stop words, join, trim, cut to 100 characters. -/
def normalizeTitle (title : String) : String :=
  let lowered := title.data.map Char.toLower
  let noPunct := lowered.filter (fun c => isWordChar c || isSpaceChar c)
  let collapsed := collapseWsAux false noPunct
  let words := (collapsed.splitOn ' ').map String.mk
  let kept := words.filter (fun w => w.length > 2 && !STOP_WORDS.contains w)
  String.mk ((trimSpaces (String.intercalate " " kept).data).take 100)

/-- Insertion-ordered duplicate-free list: the `new Set(...)` construction. -/
def toSetList (l : List String) : List String :=
  l.foldl (fun acc w => if acc.contains w then acc else acc ++ [w]) []

/-- `calculateSimilarity` of dedup.ts: Jaccard index of the two token sets,
0 when either side has no token longer than two characters. -/
def calculateSimilarity (a b : String) : Rat :=
  let wordsA := toSetList (((a.data.splitOn ' ').map String.mk).filter (fun w => w.length > 2))
  let wordsB := toSetList (((b.data.splitOn ' ').map String.mk).filter (fun w => w.length > 2))
  if wordsA.length == 0 || wordsB.length == 0 then 0
  else
    let inter := toSetList (wordsA.filter (fun x => wordsB.contains x))
    let union := toSetList (wordsA ++ wordsB)
    (inter.length : Rat) / (union.length : Rat)

/-- The story-group shape used by dedup.ts and the StoryGroup table rows. -/
structure StoryGroup where
  id : String
  canonicalTitle : String
  canonicalUrl : String
  itemCount : Int
  firstSeenAt : Nat
  lastUpdatedAt : Nat
deriving Repr, DecidableEq

/-- One step of the best-match scan in `findMatchingStoryGroup`. -/
def matchStep (normalizedTitle : String) (acc : Option StoryGroup × Rat)
    (group : StoryGroup) : Option StoryGroup × Rat :=
  let score := calculateSimilarity normalizedTitle group.canonicalTitle
  if score > acc.2 ∧ score ≥ SIMILARITY_THRESHOLD then (some group, score) else acc

/-- `findMatchingStoryGroup` of dedup.ts: best match at or above the
threshold, first group kept on ties. -/
def findMatchingStoryGroup (normalizedTitle : String)
    (storyGroups : List StoryGroup) : Option StoryGroup :=
  (storyGroups.foldl (matchStep normalizedTitle) (none, 0)).1

/-- Concrete group seeded from the first spec example title. -/
def exoplanetGroup : StoryGroup :=
  { id := "sg-1"
    canonicalTitle := normalizeTitle "Scientists Discover New Exoplanet!"
    canonicalUrl := "https://example.com/exo"
    itemCount := 1
    firstSeenAt := 0
    lastUpdatedAt := 0 }

/-- Concrete similarity value of the two exoplanet titles. -/
lemma sim_exo_exo :
    calculateSimilarity (normalizeTitle "Scientists Discover New Exoplanet!")
      (normalizeTitle "New Exoplanet Discovered by Scientists")
      = ((3 : Nat) : Rat) / ((5 : Nat) : Rat) := rfl

/-- Concrete similarity of the second exoplanet title against the stored group. -/
lemma sim_exo_group :
    calculateSimilarity (normalizeTitle "New Exoplanet Discovered by Scientists")
      exoplanetGroup.canonicalTitle = ((3 : Nat) : Rat) / ((5 : Nat) : Rat) := rfl

/-- Concrete similarity of the championship title against the first exoplanet title. -/
lemma sim_champ_exo1 :
    calculateSimilarity (normalizeTitle "Local Team Wins Championship")
      (normalizeTitle "Scientists Discover New Exoplanet!")
      = ((0 : Nat) : Rat) / ((8 : Nat) : Rat) := rfl

/-- Concrete similarity of the championship title against the second exoplanet title. -/
lemma sim_champ_exo2 :
    calculateSimilarity (normalizeTitle "Local Team Wins Championship")
      (normalizeTitle "New Exoplanet Discovered by Scientists")
      = ((0 : Nat) : Rat) / ((8 : Nat) : Rat) := rfl

/-- Concrete similarity of the championship title against the stored group. -/
lemma sim_champ_group :
    calculateSimilarity (normalizeTitle "Local Team Wins Championship")
      exoplanetGroup.canonicalTitle = ((0 : Nat) : Rat) / ((8 : Nat) : Rat) := rfl

/-- C3: the two exoplanet titles score at least 0.6 and the matcher groups
the second with the first's group, while the championship title scores
below 0.6 against both and the matcher gives it no group (hence a separate
new group). -/
theorem dedup_spec_examples :
    calculateSimilarity (normalizeTitle "Scientists Discover New Exoplanet!")
        (normalizeTitle "New Exoplanet Discovered by Scientists") ≥ SIMILARITY_THRESHOLD
    ∧ findMatchingStoryGroup (normalizeTitle "New Exoplanet Discovered by Scientists")
        [exoplanetGroup] = some exoplanetGroup
    ∧ calculateSimilarity (normalizeTitle "Local Team Wins Championship")
        (normalizeTitle "Scientists Discover New Exoplanet!") < SIMILARITY_THRESHOLD
    ∧ calculateSimilarity (normalizeTitle "Local Team Wins Championship")
        (normalizeTitle "New Exoplanet Discovered by Scientists") < SIMILARITY_THRESHOLD
    ∧ findMatchingStoryGroup (normalizeTitle "Local Team Wins Championship")
        [exoplanetGroup] = none := by
  refine ⟨?_, ?_, ?_, ?_, ?_⟩
  · rw [sim_exo_exo]; norm_num [SIMILARITY_THRESHOLD]
  · simp only [findMatchingStoryGroup, List.foldl_cons, List.foldl_nil, matchStep,
      sim_exo_group]
    split
    case isTrue h => rfl
    case isFalse h =>
      exact (h ⟨by norm_num, by norm_num [SIMILARITY_THRESHOLD]⟩).elim
  · rw [sim_champ_exo1]; norm_num [SIMILARITY_THRESHOLD]
  · rw [sim_champ_exo2]; norm_num [SIMILARITY_THRESHOLD]
  · simp only [findMatchingStoryGroup, List.foldl_cons, List.foldl_nil, matchStep,
      sim_champ_group]
    split
    case isTrue h => exact absurd h.1 (by norm_num)
    case isFalse h => rfl

/-! ## db.ts : source records and health tracking -/

/-- A Source table row (the fields the rss-poll lambda reads and writes). -/
structure Source where
  id : String
  url : String
  name : String
  isActive : Bool
  consecutiveErrors : Nat
  lastError : Option String
  lastPolledAt : Option Nat
  lastSuccessAt : Option Nat
deriving Repr, DecidableEq

/-- The auto-disable threshold of `updateSourceError`. -/
def MAX_CONSECUTIVE_ERRORS : Nat := 5

/-- Character-level truncation, the `.slice(0, n)` call on a string. -/
def sliceChars (s : String) (n : Nat) : String :=
  String.mk (s.data.take n)

/-- `updateSourceSuccess` of db.ts: stamp the poll, zero the error count,
remove the stored error. -/
def updateSourceSuccess (s : Source) (now : Nat) : Source :=
  { s with lastPolledAt := some now
           lastSuccessAt := some now
           consecutiveErrors := 0
           lastError := none }

/-- The read half of `updateSourceError` of db.ts: a Scan with
FilterExpression id = :id and Limit 1. The limit applies before the
filter, so only the first row of the table is examined; a miss is read as
0 (`|| 0` on the absent attribute). -/
def readConsecutiveErrors (tbl : List Source) (sourceId : String) : Nat :=
  match (tbl.take 1).filter (fun s => s.id == sourceId) with
  | [] => 0
  | s :: _ => s.consecutiveErrors

/-- The full `updateSourceError` command of db.ts on the Source table:
read the current count through the Limit-1 scan, add one, truncate the
message, and write the stamp, message, count and isActive to the row keyed
by the source id. -/
def updateSourceErrorTable (tbl : List Source) (sourceId : String)
    (msg : String) (now : Nat) : List Source :=
  let currentErrors := readConsecutiveErrors tbl sourceId
  let newErrorCount := currentErrors + 1
  let shouldDisable := decide (newErrorCount ≥ MAX_CONSECUTIVE_ERRORS)
  tbl.map (fun s =>
    if s.id == sourceId then
      { s with lastPolledAt := some now
               lastError := some (sliceChars msg 500)
               consecutiveErrors := newErrorCount
               isActive := !shouldDisable }
    else s)

/-- C6 (amended): when the failing source's row is the first row the
Limit-1 scan examines, recordFailure stores count c+1, stores the message
truncated to at most 500 characters, and flips isActive to false in the
same update exactly when c+1 reaches 5. (A row anywhere else in scan
order is read as 0 and stored as 1 instead — see the counterexample.) -/
theorem recordFailure_updates (s : Source) (rest : List Source) (msg : String)
    (now : Nat) :
    ∃ s' rest', updateSourceErrorTable (s :: rest) s.id msg now = s' :: rest'
      ∧ s'.consecutiveErrors = s.consecutiveErrors + 1
      ∧ s'.lastError = some (sliceChars msg 500)
      ∧ (sliceChars msg 500).length ≤ 500
      ∧ (s'.isActive = false ↔ s.consecutiveErrors + 1 ≥ 5) := by
  have hread : readConsecutiveErrors (s :: rest) s.id = s.consecutiveErrors := by
    unfold readConsecutiveErrors
    simp [List.take_succ_cons, List.filter_cons]
  unfold updateSourceErrorTable
  rw [hread, List.map_cons]
  simp only [beq_self_eq_true, if_true]
  refine ⟨_, _, rfl, rfl, rfl, ?_, ?_⟩
  · show (msg.data.take 500).length ≤ 500
    rw [List.length_take]
    exact min_le_left _ _
  · simp [MAX_CONSECUTIVE_ERRORS]

/-- A head row of a different source, crowding out the Limit-1 scan. -/
def headSource : Source :=
  { id := "src-head", url := "https://head.example.com", name := "Head",
    isActive := true, consecutiveErrors := 0, lastError := none,
    lastPolledAt := none, lastSuccessAt := none }

/-- A source with four consecutive errors sitting second in scan order. -/
def tailSource : Source :=
  { id := "src-tail", url := "https://tail.example.com", name := "Tail",
    isActive := true, consecutiveErrors := 4, lastError := none,
    lastPolledAt := none, lastSuccessAt := none }

/-- C6 counterexample: recording a fifth consecutive failure against a
source that is not the first row of the Source table stores
consecutiveErrors = 1 rather than c+1 = 5, and isActive stays true — the
Limit-1 scan examined only the first row and the id filter discarded it,
so the read yielded 0 and auto-disable never fires. -/
theorem recordFailure_miscount_counterexample :
    tailSource.consecutiveErrors + 1 = 5
    ∧ ((updateSourceErrorTable [headSource, tailSource] "src-tail" "boom" 5).map
        (fun s => s.consecutiveErrors)) = [0, 1]
    ∧ (∀ s ∈ updateSourceErrorTable [headSource, tailSource] "src-tail" "boom" 5,
        s.isActive = true) :=
  ⟨by decide, by decide, by decide⟩

/-- C10: a failure recorded against a source below the auto-disable
threshold writes isActive = true to that source's row regardless of the
stored flag — the update computes isActive = !(newErrorCount >= 5) with no
regard to the row's previous value, re-activating even a source an
operator had set inactive. (The hypothesis bounds the stored count of
every row of the id; whatever the Limit-1 read returned — the row's own
count or a 0 miss — the written count stays below the threshold.) -/
theorem recordFailure_reactivates (tbl : List Source) (sid msg : String)
    (now : Nat)
    (hBelow : ∀ s ∈ tbl, s.id = sid → s.consecutiveErrors + 1 < 5) :
    ((updateSourceErrorTable tbl sid msg now).filter
        (fun s => s.id == sid)).all (fun s => s.isActive) = true := by
  have hread : readConsecutiveErrors tbl sid + 1 < 5 := by
    unfold readConsecutiveErrors
    cases hm : (tbl.take 1).filter (fun s => s.id == sid) with
    | nil => decide
    | cons s0 tl =>
      have hs0 : s0 ∈ (tbl.take 1).filter (fun s => s.id == sid) := by
        rw [hm]
        exact List.mem_cons_self _ _
      obtain ⟨hmem, hid⟩ := List.mem_filter.mp hs0
      exact hBelow s0 (List.take_subset _ _ hmem) (by simpa using hid)
  have hnot : ¬(readConsecutiveErrors tbl sid + 1 ≥ MAX_CONSECUTIVE_ERRORS) := by
    simp only [MAX_CONSECUTIVE_ERRORS]
    omega
  rw [List.all_eq_true]
  intro s' hs'
  obtain ⟨hs'mem, hs'id⟩ := List.mem_filter.mp hs'
  simp only [updateSourceErrorTable] at hs'mem
  obtain ⟨s, hsmem, heq⟩ := List.mem_map.mp hs'mem
  by_cases hid : (s.id == sid) = true
  · rw [if_pos hid] at heq
    rw [← heq]
    simp [hnot]
  · rw [if_neg hid] at heq
    rw [← heq] at hs'id
    exact absurd hs'id hid

/-- Sample operator-disabled source used to witness the re-activation claim. -/
def disabledSource : Source :=
  { id := "src-1", url := "https://example.com/feed", name := "Example",
    isActive := false, consecutiveErrors := 0, lastError := none,
    lastPolledAt := none, lastSuccessAt := none }

/-- Witness for the re-activation theorem: a one-row table holding an
operator-disabled source, whose row carries isActive = true after the
failure is recorded. -/
theorem recordFailure_reactivates_witness :
    disabledSource.isActive = false
    ∧ ((updateSourceErrorTable [disabledSource] "src-1" "boom" 1000).filter
        (fun s => s.id == "src-1")).all (fun s => s.isActive) = true :=
  ⟨rfl, recordFailure_reactivates [disabledSource] "src-1" "boom" 1000 (by decide)⟩

/-! ## db.ts / handler.ts : feed items and the ingestion loop -/

/-- A parsed feed entry, as produced by the fetcher; `publishedAt` is the
epoch-millisecond value of the parsed date (`Date.getTime()`). -/
structure RSSItem where
  externalId : String
  title : String
  url : String
  content : String
  publishedAt : Nat
deriving Repr, DecidableEq

/-- A FeedItem table row as written by `saveFeedItem`; `expiresAt` is in
epoch seconds, `deletedSourceId`/`deletedFeedId` are the deletion markers
set by the cleanup lambda. -/
structure FeedItemRec where
  id : String
  sourceId : String
  sourceName : String
  externalId : String
  title : String
  url : String
  content : String
  publishedAt : Nat
  fetchedAt : Nat
  expiresAt : Nat
  storyGroupId : String
  titleNormalized : String
  isHidden : Bool
  deletedSourceId : Option String
  deletedFeedId : Option String
deriving Repr, DecidableEq

/-- Retention window of saveFeedItem (`TTL_DAYS = 14`). -/
def TTL_DAYS : Nat := 14

/-- The record `saveFeedItem` puts in the FeedItem table: expiry is the
published time floored to seconds plus 14 days, `isHidden` is false. -/
def mkFeedItem (fiId : String) (src : Source) (item : RSSItem)
    (titleNormalized storyGroupId : String) (now : Nat) : FeedItemRec :=
  { id := fiId
    sourceId := src.id
    sourceName := src.name
    externalId := item.externalId
    title := item.title
    url := item.url
    content := item.content
    publishedAt := item.publishedAt
    fetchedAt := now
    expiresAt := item.publishedAt / 1000 + TTL_DAYS * 24 * 60 * 60
    storyGroupId := storyGroupId
    titleNormalized := titleNormalized
    isHidden := false
    deletedSourceId := none
    deletedFeedId := none }

/-- Page size of the existing-id scan (`Limit: 500`); DynamoDB applies the
limit to the rows examined before the filter, and the call does not
paginate. -/
def SCAN_LIMIT : Nat := 500

/-- `getExistingExternalIds` of db.ts: scan at most `SCAN_LIMIT` rows, keep
those of the source whose externalId occurs among the queried ids. -/
def getExistingExternalIds (feedItems : List FeedItemRec) (sourceId : String)
    (externalIds : List String) : List String :=
  (((feedItems.take SCAN_LIMIT).filter (fun it => it.sourceId == sourceId)).filter
      (fun it => externalIds.contains it.externalId)).map (fun it => it.externalId)

/-- `updateStoryGroupCount` of db.ts: overwrite the stored count of the
given group with the caller-computed value. -/
def updateStoryGroupCount (sgTable : List StoryGroup) (storyGroupId : String)
    (newCount : Int) (now : Nat) : List StoryGroup :=
  sgTable.map (fun g =>
    if g.id == storyGroupId then { g with itemCount := newCount, lastUpdatedAt := now } else g)

/-- The group `createStoryGroupInDb` writes: seeded from the item, count 1. -/
def mkStoryGroup (sgId : String) (normalizedTitle : String) (item : RSSItem)
    (now : Nat) : StoryGroup :=
  { id := sgId, canonicalTitle := normalizedTitle, canonicalUrl := item.url,
    itemCount := 1, firstSeenAt := now, lastUpdatedAt := now }

/-- The in-memory bump `matchingGroup.itemCount++` of handler.ts. -/
def bumpLocalCount (recent : List StoryGroup) (storyGroupId : String) : List StoryGroup :=
  recent.map (fun g =>
    if g.id == storyGroupId then { g with itemCount := g.itemCount + 1 } else g)

/-- The state threaded through the per-item loop of handler.ts: the two
tables, the in-memory recent-group list, an id-generation counter and the
newItemsSaved counter. -/
structure LoopState where
  feedItems : List FeedItemRec
  sgTable : List StoryGroup
  recent : List StoryGroup
  nextId : Nat
  saved : Nat
  errors : List String
deriving Repr, DecidableEq

/-- One iteration of the per-item loop in handler.ts: skip known ids,
match or create a story group, persist the feed item. The per-item
try/catch is modelled by the `saveOk` oracle deciding whether the
`saveFeedItem` write succeeds: on a write failure the group updates made
before the write stand, no row is appended, `newItemsSaved` is not
bumped, and the catch block appends "Failed to save: " plus the item's
title to the error list. -/
def processItem (src : Source) (existing : List String)
    (saveOk : RSSItem → Bool) (now : Nat)
    (st : LoopState) (item : RSSItem) : LoopState :=
  if existing.contains item.externalId then st
  else
    let titleNormalized := normalizeTitle item.title
    match findMatchingStoryGroup titleNormalized st.recent with
    | some matchingGroup =>
        let st1 : LoopState :=
          { st with
            sgTable := updateStoryGroupCount st.sgTable matchingGroup.id
              (matchingGroup.itemCount + 1) now
            recent := bumpLocalCount st.recent matchingGroup.id }
        if saveOk item then
          { st1 with
            feedItems := st1.feedItems ++
              [mkFeedItem ("fi-" ++ toString st.nextId) src item titleNormalized
                matchingGroup.id now]
            nextId := st.nextId + 1
            saved := st.saved + 1 }
        else
          { st1 with errors := st1.errors ++ ["Failed to save: " ++ item.title] }
    | none =>
        let newGroup := mkStoryGroup ("sg-" ++ toString st.nextId) titleNormalized item now
        let st1 : LoopState :=
          { st with
            sgTable := st.sgTable ++ [newGroup]
            recent := st.recent ++ [newGroup]
            nextId := st.nextId + 1 }
        if saveOk item then
          { st1 with
            feedItems := st1.feedItems ++
              [mkFeedItem ("fi-" ++ toString (st.nextId + 1)) src item titleNormalized
                newGroup.id now]
            nextId := st.nextId + 2
            saved := st.saved + 1 }
        else
          { st1 with errors := st1.errors ++ ["Failed to save: " ++ item.title] }

/-- The per-source body of handler.ts: compute the existing-id set once,
then run the item loop over it. -/
def processSource (src : Source) (saveOk : RSSItem → Bool) (now : Nat)
    (st : LoopState) (items : List RSSItem) : LoopState :=
  let externalIds := items.map (fun it => it.externalId)
  let existing := getExistingExternalIds st.feedItems src.id externalIds
  items.foldl (processItem src existing saveOk now) st

/-- The group id `processItem` assigns to a fresh (non-skipped) item. -/
def chosenGroupId (st : LoopState) (item : RSSItem) : String :=
  match findMatchingStoryGroup (normalizeTitle item.title) st.recent with
  | some g => g.id
  | none => "sg-" ++ toString st.nextId

/-- Persisting a fresh item appends exactly one record, carrying the
source id, the item's external id, the computed expiry, the chosen group
and `isHidden = false`. -/
lemma processItem_append (src : Source) (existing : List String)
    (saveOk : RSSItem → Bool) (now : Nat)
    (st : LoopState) (item : RSSItem)
    (hNew : existing.contains item.externalId = false)
    (hok : saveOk item = true) :
    ∃ r, (processItem src existing saveOk now st item).feedItems = st.feedItems ++ [r]
      ∧ r.sourceId = src.id
      ∧ r.externalId = item.externalId
      ∧ r.publishedAt = item.publishedAt
      ∧ r.expiresAt = item.publishedAt / 1000 + TTL_DAYS * 24 * 60 * 60
      ∧ r.isHidden = false
      ∧ r.storyGroupId = chosenGroupId st item
      ∧ (processItem src existing saveOk now st item).saved = st.saved + 1 := by
  unfold processItem chosenGroupId
  rw [hNew, hok]
  simp only [Bool.false_eq_true, if_false, if_true]
  cases h : findMatchingStoryGroup (normalizeTitle item.title) st.recent with
  | some g => exact ⟨_, rfl, rfl, rfl, rfl, rfl, rfl, rfl, rfl⟩
  | none => exact ⟨_, rfl, rfl, rfl, rfl, rfl, rfl, rfl, rfl⟩

/-- A skipped item leaves the state unchanged. -/
lemma processItem_skip (src : Source) (existing : List String)
    (saveOk : RSSItem → Bool) (now : Nat)
    (st : LoopState) (item : RSSItem)
    (hOld : existing.contains item.externalId = true) :
    processItem src existing saveOk now st item = st := by
  unfold processItem
  rw [hOld]
  simp

/-- A failed write appends no row, keeps the saved counter, and appends
the catch block's error string. -/
lemma processItem_failed (src : Source) (existing : List String)
    (saveOk : RSSItem → Bool) (now : Nat)
    (st : LoopState) (item : RSSItem)
    (hNew : existing.contains item.externalId = false)
    (hok : saveOk item = false) :
    (processItem src existing saveOk now st item).feedItems = st.feedItems
    ∧ (processItem src existing saveOk now st item).saved = st.saved
    ∧ (processItem src existing saveOk now st item).errors
        = st.errors ++ ["Failed to save: " ++ item.title] := by
  unfold processItem
  rw [hNew, hok]
  simp only [Bool.false_eq_true, if_false]
  cases h : findMatchingStoryGroup (normalizeTitle item.title) st.recent with
  | some g => exact ⟨rfl, rfl, rfl⟩
  | none => exact ⟨rfl, rfl, rfl⟩

/-- C8: every feed item the ingestion loop persists — a fresh external id
whose write succeeds — has expiry equal to the published time in floored
epoch seconds plus exactly 14 days (1209600 seconds), carries the matched
or newly created group's id, and is not hidden. -/
theorem saved_item_fields (src : Source) (existing : List String)
    (saveOk : RSSItem → Bool) (now : Nat)
    (st : LoopState) (item : RSSItem)
    (hNew : existing.contains item.externalId = false)
    (hok : saveOk item = true) :
    ∃ r, (processItem src existing saveOk now st item).feedItems = st.feedItems ++ [r]
      ∧ r.expiresAt = item.publishedAt / 1000 + TTL_DAYS * 24 * 60 * 60
      ∧ TTL_DAYS * 24 * 60 * 60 = 1209600
      ∧ r.storyGroupId = chosenGroupId st item
      ∧ r.isHidden = false := by
  obtain ⟨r, hfi, _, _, _, hexp, hhid, hgrp, _⟩ :=
    processItem_append src existing saveOk now st item hNew hok
  exact ⟨r, hfi, hexp, by decide, hgrp, hhid⟩

/-- Sample source for the witnesses of the ingestion theorems. -/
def sampleSource : Source :=
  { id := "s1", url := "https://example.com/feed", name := "Sample",
    isActive := true, consecutiveErrors := 0, lastError := none,
    lastPolledAt := none, lastSuccessAt := none }

/-- Sample parsed entry for the witnesses of the ingestion theorems. -/
def sampleItem : RSSItem :=
  { externalId := "e1", title := "Scientists Discover New Exoplanet!",
    url := "https://example.com/a", content := "snippet",
    publishedAt := 1700000000500 }

/-- The empty ingestion state. -/
def emptyLoopState : LoopState :=
  { feedItems := [], sgTable := [], recent := [], nextId := 0, saved := 0,
    errors := [] }

/-- Witness for the persisted-field theorem at a concrete fresh item. -/
theorem saved_item_fields_witness :
    ∃ r, (processItem sampleSource [] (fun _ => true) 1700000001000
            emptyLoopState sampleItem).feedItems
        = emptyLoopState.feedItems ++ [r]
      ∧ r.expiresAt = sampleItem.publishedAt / 1000 + TTL_DAYS * 24 * 60 * 60
      ∧ TTL_DAYS * 24 * 60 * 60 = 1209600
      ∧ r.storyGroupId = chosenGroupId emptyLoopState sampleItem
      ∧ r.isHidden = false :=
  saved_item_fields sampleSource [] (fun _ => true) 1700000001000
    emptyLoopState sampleItem rfl rfl

/-! ## Idempotent re-ingestion (the (sourceId, externalId) invariant) -/

/-- Row predicate for one (sourceId, externalId) pair. -/
def pairP (sid e : String) (r : FeedItemRec) : Bool :=
  r.sourceId == sid && r.externalId == e

/-- Effect of one loop iteration on the number of rows of a pair: a row is
added exactly for a fresh external id whose write succeeds. -/
lemma processItem_countP (src : Source) (existing : List String)
    (saveOk : RSSItem → Bool) (now : Nat)
    (st : LoopState) (item : RSSItem) (e : String) :
    ((processItem src existing saveOk now st item).feedItems.countP (pairP src.id e)) =
      st.feedItems.countP (pairP src.id e) +
        (if existing.contains item.externalId then 0
         else if saveOk item && item.externalId == e then 1 else 0) := by
  cases hc : existing.contains item.externalId with
  | true => rw [processItem_skip _ _ _ _ _ _ hc]; simp
  | false =>
    cases hok : saveOk item with
    | true =>
      obtain ⟨r, hfi, hsid, hext, -, -, -, -, -⟩ :=
        processItem_append src existing saveOk now st item hc hok
      rw [hfi, List.countP_append]
      by_cases h : item.externalId = e <;> simp [pairP, hsid, hext, h]
    | false =>
      rw [(processItem_failed src existing saveOk now st item hc hok).1]
      simp [hok]

/-- Effect of the whole item loop on the number of rows of a pair: nothing
is added when the pair is in the existing-id set, one row per occurrence
whose write succeeds otherwise. -/
lemma foldl_processItem_countP (src : Source) (existing : List String)
    (saveOk : RSSItem → Bool) (now : Nat) (e : String) :
    ∀ (items : List RSSItem) (st : LoopState),
    ((items.foldl (processItem src existing saveOk now) st).feedItems.countP
        (pairP src.id e)) =
      st.feedItems.countP (pairP src.id e) +
        (if existing.contains e then 0
         else items.countP (fun it => saveOk it && it.externalId == e))
  | [], st => by simp
  | item :: rest, st => by
    rw [List.foldl_cons, foldl_processItem_countP src existing saveOk now e rest _,
      processItem_countP, List.countP_cons]
    by_cases hie : item.externalId = e
    · subst hie
      cases hc : existing.contains item.externalId <;>
        cases hok : saveOk item <;> simp [hc, hok] <;> omega
    · have hbe : (item.externalId == e) = false := by simp [hie]
      simp [hbe]

/-- Effect of one poll run over one source on the number of rows of a pair. -/
lemma processSource_countP (src : Source) (saveOk : RSSItem → Bool) (now : Nat)
    (st : LoopState) (items : List RSSItem) (e : String) :
    ((processSource src saveOk now st items).feedItems.countP (pairP src.id e)) =
      st.feedItems.countP (pairP src.id e) +
        (if (getExistingExternalIds st.feedItems src.id
              (items.map (fun it => it.externalId))).contains e then 0
         else items.countP (fun it => saveOk it && it.externalId == e)) := by
  unfold processSource
  exact foldl_processItem_countP src _ saveOk now e items st

/-- Counting with a conjoined guard that holds on every element of the
list counts the plain predicate. -/
lemma countP_and_of_all {α : Type} (p q : α → Bool) :
    ∀ (l : List α), (∀ a ∈ l, p a = true) →
    l.countP (fun a => p a && q a) = l.countP q
  | [], _ => rfl
  | a :: l, h => by
    rw [List.countP_cons, List.countP_cons,
      countP_and_of_all p q l (fun b hb => h b (List.mem_cons_of_mem a hb)),
      h a (List.mem_cons_self a l)]
    simp

/-- Bridge between the boolean `contains` of the source's set lookups and
list membership. -/
lemma list_contains_iff {α : Type} [BEq α] [LawfulBEq α] (l : List α) (a : α) :
    l.contains a = true ↔ a ∈ l := List.elem_iff

/-- Membership in the existing-id set: a matching row within the scan
window whose external id is among the queried ids. -/
lemma contains_existing_iff (feedItems : List FeedItemRec) (sid : String)
    (qids : List String) (e : String) :
    (getExistingExternalIds feedItems sid qids).contains e = true ↔
      ∃ r ∈ feedItems.take SCAN_LIMIT,
        r.sourceId = sid ∧ r.externalId = e ∧ e ∈ qids := by
  rw [list_contains_iff]
  simp only [getExistingExternalIds, List.mem_map, List.mem_filter, beq_iff_eq,
    list_contains_iff]
  constructor
  · rintro ⟨r, ⟨⟨hmem, hsid⟩, hq⟩, rfl⟩
    exact ⟨r, hmem, hsid, rfl, hq⟩
  · rintro ⟨r, hmem, hsid, rfl, hq⟩
    exact ⟨r, ⟨⟨hmem, hsid⟩, hq⟩, rfl⟩

/-- The existing-id set misses a pair absent from the scan window. -/
lemma existing_not_contains (feedItems : List FeedItemRec) (sid : String)
    (qids : List String) (e : String)
    (h : (feedItems.take SCAN_LIMIT).countP (pairP sid e) = 0) :
    (getExistingExternalIds feedItems sid qids).contains e = false := by
  cases hcon : (getExistingExternalIds feedItems sid qids).contains e with
  | false => rfl
  | true =>
    obtain ⟨r, hrmem, hsid, hext, -⟩ := (contains_existing_iff _ _ _ _).mp hcon
    have := List.countP_eq_zero.mp h r hrmem
    simp [pairP, hsid, hext] at this

/-- A whole-table count of zero empties every scan window as well. -/
lemma countP_take_eq_zero (feedItems : List FeedItemRec) (p : FeedItemRec → Bool)
    (n : Nat) (h : feedItems.countP p = 0) :
    (feedItems.take n).countP p = 0 :=
  Nat.le_zero.mp (le_trans (List.Sublist.countP_le p (List.take_sublist n feedItems))
    (le_of_eq h))

/-- The existing-id set finds a pair when the table fits the scan window
and the pair's id is among the queried ids. -/
lemma existing_contains (feedItems : List FeedItemRec) (sid : String)
    (qids : List String) (e : String)
    (hpos : 0 < feedItems.countP (pairP sid e))
    (hlen : feedItems.length ≤ SCAN_LIMIT)
    (hq : e ∈ qids) :
    (getExistingExternalIds feedItems sid qids).contains e = true := by
  obtain ⟨r, hr, hpr⟩ := List.countP_pos_iff.mp hpos
  rw [contains_existing_iff]
  have hps : r.sourceId = sid ∧ r.externalId = e := by simpa [pairP] using hpr
  refine ⟨r, ?_, hps.1, hps.2, hq⟩
  rw [List.take_of_length_le hlen]
  exact hr

/-- C1 (amended): re-ingestion of the same (sourceId, externalId) pair
across two poll runs, with the runs' writes succeeding, yields exactly one
row, provided the table still fits the 500-row window of the second run's
existing-id scan. -/
theorem ingest_idempotent (src : Source) (e : String) (now1 now2 : Nat)
    (saveOk1 saveOk2 : RSSItem → Bool)
    (l1 l2 : List RSSItem) (st0 st1 : LoopState)
    (h0 : st0.feedItems.countP (pairP src.id e) = 0)
    (h1 : l1.countP (fun it => it.externalId == e) = 1)
    (h2 : l2.countP (fun it => it.externalId == e) = 1)
    (hs1 : ∀ it ∈ l1, saveOk1 it = true)
    (hcarry : st1.feedItems = (processSource src saveOk1 now1 st0 l1).feedItems)
    (hlen : st1.feedItems.length ≤ SCAN_LIMIT) :
    (processSource src saveOk2 now2 st1 l2).feedItems.countP (pairP src.id e) = 1 := by
  have hrun1 : (processSource src saveOk1 now1 st0 l1).feedItems.countP
      (pairP src.id e) = 1 := by
    rw [processSource_countP,
      existing_not_contains _ _ _ _ (countP_take_eq_zero _ _ _ h0), h0,
      countP_and_of_all _ _ l1 hs1, h1]
    simp
  have hq : e ∈ l2.map (fun it => it.externalId) := by
    have hpos : 0 < l2.countP (fun it => it.externalId == e) := by rw [h2]; norm_num
    obtain ⟨it, hit, hpr⟩ := List.countP_pos_iff.mp hpos
    have hee : it.externalId = e := by simpa using hpr
    rw [← hee]
    exact List.mem_map_of_mem _ hit
  have hpos1 : 0 < st1.feedItems.countP (pairP src.id e) := by
    rw [hcarry, hrun1]
    norm_num
  rw [processSource_countP, existing_contains _ _ _ _ hpos1 hlen hq, hcarry, hrun1]
  simp

/-- Witness for the amended idempotence claim on a fresh one-item feed. -/
theorem ingest_idempotent_witness :
    (processSource sampleSource (fun _ => true) 2000
        (processSource sampleSource (fun _ => true) 1000 emptyLoopState [sampleItem])
        [sampleItem]).feedItems.countP (pairP sampleSource.id "e1") = 1 :=
  ingest_idempotent sampleSource "e1" 1000 2000 (fun _ => true) (fun _ => true)
    [sampleItem] [sampleItem]
    emptyLoopState
    (processSource sampleSource (fun _ => true) 1000 emptyLoopState [sampleItem])
    rfl (by decide) (by decide) (fun it _ => rfl) rfl (by decide)

/-- Filler row of a different source, used to crowd out the scan window. -/
def fillerRow : FeedItemRec :=
  { id := "fi-f", sourceId := "other", sourceName := "Other", externalId := "x",
    title := "t", url := "u", content := "c", publishedAt := 0, fetchedAt := 0,
    expiresAt := 0, storyGroupId := "", titleNormalized := "", isHidden := false,
    deletedSourceId := none, deletedFeedId := none }

/-- Initial state whose table already holds 500 rows of another source. -/
def crowdedState : LoopState :=
  { feedItems := List.replicate 500 fillerRow, sgTable := [], recent := [],
    nextId := 0, saved := 0, errors := [] }

/-- C1 counterexample: with 500 rows of another source ahead of it in scan
order, the row saved by the first run lies beyond the 500-row scan window,
the second run's existing-id check misses it, and the same pair is stored
twice. -/
theorem ingest_idempotent_counterexample :
    (processSource sampleSource (fun _ => true) 2000
        (processSource sampleSource (fun _ => true) 1000 crowdedState [sampleItem])
        [sampleItem]).feedItems.countP (pairP sampleSource.id "e1") = 2 := by
  have hfill : ∀ r ∈ crowdedState.feedItems, ¬(pairP sampleSource.id "e1" r = true) := by
    intro r hr
    have := List.eq_of_mem_replicate hr
    subst this
    decide
  have h0 : crowdedState.feedItems.countP (pairP sampleSource.id "e1") = 0 :=
    List.countP_eq_zero.mpr hfill
  have hrun1 : (processSource sampleSource (fun _ => true) 1000 crowdedState
      [sampleItem]).feedItems.countP (pairP sampleSource.id "e1") = 1 := by
    rw [processSource_countP,
      existing_not_contains _ _ _ _ (countP_take_eq_zero _ _ _ h0), h0]
    decide
  have hNew : (getExistingExternalIds crowdedState.feedItems sampleSource.id
      ([sampleItem].map (fun it => it.externalId))).contains sampleItem.externalId = false :=
    existing_not_contains _ _ _ _ (countP_take_eq_zero _ _ _ h0)
  obtain ⟨r, hT1, -, -, -, -, -, -, -⟩ :=
    processItem_append sampleSource
      (getExistingExternalIds crowdedState.feedItems sampleSource.id
        ([sampleItem].map (fun it => it.externalId)))
      (fun _ => true) 1000 crowdedState sampleItem hNew rfl
  have hT1' : (processSource sampleSource (fun _ => true) 1000 crowdedState
      [sampleItem]).feedItems = crowdedState.feedItems ++ [r] := by
    unfold processSource
    simpa using hT1
  have htake : ((processSource sampleSource (fun _ => true) 1000 crowdedState
      [sampleItem]).feedItems.take
      SCAN_LIMIT).countP (pairP sampleSource.id "e1") = 0 := by
    rw [hT1']
    have hlenfill : crowdedState.feedItems.length = SCAN_LIMIT := by
      simp [crowdedState, SCAN_LIMIT]
    rw [← hlenfill, List.take_left]
    exact List.countP_eq_zero.mpr hfill
  rw [processSource_countP, existing_not_contains _ _ _ _ htake, hrun1]
  decide

/-! ## Characterisation of the best-match scan -/

/-- When no candidate beats the running accumulator and clears the
threshold, the scan keeps the accumulator. -/
lemma matchFold_no_update (t : String) (gs : List StoryGroup) :
    ∀ (acc : Option StoryGroup × Rat),
    (∀ g ∈ gs, ¬(calculateSimilarity t g.canonicalTitle > acc.2 ∧
        calculateSimilarity t g.canonicalTitle ≥ SIMILARITY_THRESHOLD)) →
    gs.foldl (matchStep t) acc = acc := by
  induction gs with
  | nil => intro acc _; rfl
  | cons g gs ih =>
    intro acc h
    rw [List.foldl_cons]
    have hstep : matchStep t acc g = acc := by
      unfold matchStep
      rw [if_neg (h g (List.mem_cons_self g gs))]
    rw [hstep]
    exact ih acc (fun g' hg' => h g' (List.mem_cons_of_mem _ hg'))

/-- When some candidate beats the accumulator and clears the threshold, the
scan ends on the first candidate attaining the maximal score: that score is
at or above the threshold and above the accumulator, no candidate scores
higher, and every earlier candidate scores strictly lower. -/
lemma matchFold_update (t : String) (gs : List StoryGroup) :
    ∀ (acc : Option StoryGroup × Rat),
    (∃ g ∈ gs, calculateSimilarity t g.canonicalTitle > acc.2 ∧
        calculateSimilarity t g.canonicalTitle ≥ SIMILARITY_THRESHOLD) →
    ∃ i : Fin gs.length,
      gs.foldl (matchStep t) acc
          = (some (gs.get i), calculateSimilarity t (gs.get i).canonicalTitle)
        ∧ calculateSimilarity t (gs.get i).canonicalTitle ≥ SIMILARITY_THRESHOLD
        ∧ calculateSimilarity t (gs.get i).canonicalTitle > acc.2
        ∧ (∀ j : Fin gs.length,
            calculateSimilarity t (gs.get j).canonicalTitle
              ≤ calculateSimilarity t (gs.get i).canonicalTitle)
        ∧ (∀ j : Fin gs.length, j < i →
            calculateSimilarity t (gs.get j).canonicalTitle
              < calculateSimilarity t (gs.get i).canonicalTitle) := by
  induction gs with
  | nil => intro acc h; simp at h
  | cons g gs ih =>
    intro acc h
    rw [List.foldl_cons]
    by_cases hC : calculateSimilarity t g.canonicalTitle > acc.2 ∧
        calculateSimilarity t g.canonicalTitle ≥ SIMILARITY_THRESHOLD
    · have hstep : matchStep t acc g = (some g, calculateSimilarity t g.canonicalTitle) := by
        unfold matchStep
        rw [if_pos hC]
      rw [hstep]
      by_cases hrest : ∃ g' ∈ gs,
          calculateSimilarity t g'.canonicalTitle > calculateSimilarity t g.canonicalTitle ∧
          calculateSimilarity t g'.canonicalTitle ≥ SIMILARITY_THRESHOLD
      · obtain ⟨i, heq, hth, hgt, hle, hlt⟩ :=
          ih (some g, calculateSimilarity t g.canonicalTitle) hrest
        have hget : (g :: gs).get ⟨i.val + 1, by simp only [List.length_cons]; omega⟩ = gs.get i := by
          have : (g :: gs).get ⟨i.val + 1, by simp only [List.length_cons]; omega⟩ = gs.get ⟨i.val, i.isLt⟩ := rfl
          rw [this]
        refine ⟨⟨i.val + 1, by simp only [List.length_cons]; omega⟩, ?_, ?_, ?_, ?_, ?_⟩
        · rw [hget]; exact heq
        · rw [hget]; exact hth
        · rw [hget]; exact lt_trans hC.1 hgt
        · rintro ⟨jv, hj⟩
          rw [hget]
          cases jv with
          | zero =>
            show calculateSimilarity t g.canonicalTitle ≤ _
            exact le_of_lt hgt
          | succ j =>
            show calculateSimilarity t (gs.get ⟨j, by simp only [List.length_cons] at hj; omega⟩).canonicalTitle ≤ _
            exact hle ⟨j, by simp only [List.length_cons] at hj; omega⟩
        · rintro ⟨jv, hj⟩ hjlt
          rw [hget]
          cases jv with
          | zero =>
            show calculateSimilarity t g.canonicalTitle < _
            exact hgt
          | succ j =>
            have hji : j < i.val := by
              have h2 := hjlt
              simp only [Fin.mk_lt_mk] at h2
              omega
            show calculateSimilarity t (gs.get ⟨j, by simp only [List.length_cons] at hj; omega⟩).canonicalTitle < _
            exact hlt ⟨j, by simp only [List.length_cons] at hj; omega⟩ hji
      · push_neg at hrest
        have hkeep : gs.foldl (matchStep t) (some g, calculateSimilarity t g.canonicalTitle)
            = (some g, calculateSimilarity t g.canonicalTitle) := by
          apply matchFold_no_update
          intro g' hg' hcond
          exact absurd hcond.2 (not_le.mpr (hrest g' hg' hcond.1))
        refine ⟨⟨0, by simp only [List.length_cons]; omega⟩, ?_, hC.2, hC.1, ?_, ?_⟩
        · exact hkeep
        · rintro ⟨jv, hj⟩
          cases jv with
          | zero => exact le_refl _
          | succ j =>
            show calculateSimilarity t (gs.get ⟨j, by simp only [List.length_cons] at hj; omega⟩).canonicalTitle ≤ _
            by_cases hgt' : calculateSimilarity t (gs.get ⟨j, by simp only [List.length_cons] at hj; omega⟩).canonicalTitle >
                calculateSimilarity t g.canonicalTitle
            · have hth' := hrest (gs.get ⟨j, by simp only [List.length_cons] at hj; omega⟩) (List.get_mem gs _ _) hgt'
              exact le_trans (le_of_lt hth') hC.2
            · exact not_lt.mp hgt'
        · rintro ⟨jv, hj⟩ hjlt
          simp only [Fin.mk_lt_mk] at hjlt
          omega
    · have hstep : matchStep t acc g = acc := by
        unfold matchStep
        rw [if_neg hC]
      rw [hstep]
      have hin : ∃ g' ∈ gs, calculateSimilarity t g'.canonicalTitle > acc.2 ∧
          calculateSimilarity t g'.canonicalTitle ≥ SIMILARITY_THRESHOLD := by
        obtain ⟨g0, hg0mem, hg0⟩ := h
        rcases List.mem_cons.mp hg0mem with rfl | hmem
        · exact absurd hg0 hC
        · exact ⟨g0, hmem, hg0⟩
      obtain ⟨i, heq, hth, hgt, hle, hlt⟩ := ih acc hin
      have hnotC : calculateSimilarity t g.canonicalTitle ≤ acc.2 ∨
          calculateSimilarity t g.canonicalTitle < SIMILARITY_THRESHOLD := by
        rcases not_and_or.mp hC with h1 | h2
        · exact Or.inl (not_lt.mp h1)
        · exact Or.inr (not_le.mp h2)
      have hgstrict : calculateSimilarity t g.canonicalTitle
          < calculateSimilarity t (gs.get i).canonicalTitle := by
        rcases hnotC with h1 | h2
        · exact lt_of_le_of_lt h1 hgt
        · exact lt_of_lt_of_le h2 hth
      have hget : (g :: gs).get ⟨i.val + 1, by simp only [List.length_cons]; omega⟩ = gs.get i := by
        have : (g :: gs).get ⟨i.val + 1, by simp only [List.length_cons]; omega⟩ = gs.get ⟨i.val, i.isLt⟩ := rfl
        rw [this]
      refine ⟨⟨i.val + 1, by simp only [List.length_cons]; omega⟩, ?_, ?_, ?_, ?_, ?_⟩
      · rw [hget]; exact heq
      · rw [hget]; exact hth
      · rw [hget]; exact hgt
      · rintro ⟨jv, hj⟩
        rw [hget]
        cases jv with
        | zero =>
          show calculateSimilarity t g.canonicalTitle ≤ _
          exact le_of_lt hgstrict
        | succ j =>
          show calculateSimilarity t (gs.get ⟨j, by simp only [List.length_cons] at hj; omega⟩).canonicalTitle ≤ _
          exact hle ⟨j, by simp only [List.length_cons] at hj; omega⟩
      · rintro ⟨jv, hj⟩ hjlt
        rw [hget]
        cases jv with
        | zero =>
          show calculateSimilarity t g.canonicalTitle < _
          exact hgstrict
        | succ j =>
          have hji : j < i.val := by
            simp only [Fin.mk_lt_mk] at hjlt
            omega
          show calculateSimilarity t (gs.get ⟨j, by simp only [List.length_cons] at hj; omega⟩).canonicalTitle < _
          exact hlt ⟨j, by simp only [List.length_cons] at hj; omega⟩ hji

/-- C7: the matcher returns none exactly when no candidate reaches the
0.6 threshold (in particular on the empty list), and a returned group is a
candidate at or above the threshold that no candidate beats and that every
earlier candidate scores strictly below — so ties keep the first group in
iteration order. -/
theorem matcher_returns_best (t : String) (gs : List StoryGroup) :
    findMatchingStoryGroup t [] = none
    ∧ (findMatchingStoryGroup t gs = none ↔
        ∀ g ∈ gs, calculateSimilarity t g.canonicalTitle < SIMILARITY_THRESHOLD)
    ∧ (∀ g, findMatchingStoryGroup t gs = some g →
        ∃ i : Fin gs.length, gs.get i = g
          ∧ calculateSimilarity t g.canonicalTitle ≥ SIMILARITY_THRESHOLD
          ∧ (∀ j : Fin gs.length,
              calculateSimilarity t (gs.get j).canonicalTitle
                ≤ calculateSimilarity t g.canonicalTitle)
          ∧ (∀ j : Fin gs.length, j < i →
              calculateSimilarity t (gs.get j).canonicalTitle
                < calculateSimilarity t g.canonicalTitle)) := by
  have hθpos : (0 : Rat) < SIMILARITY_THRESHOLD := by norm_num [SIMILARITY_THRESHOLD]
  refine ⟨rfl, ⟨?_, ?_⟩, ?_⟩
  · intro hnone
    by_contra hex
    push_neg at hex
    obtain ⟨g0, hg0, hth⟩ := hex
    obtain ⟨i, heq, -⟩ := matchFold_update t gs (none, 0)
      ⟨g0, hg0, lt_of_lt_of_le hθpos hth, hth⟩
    unfold findMatchingStoryGroup at hnone
    rw [heq] at hnone
    simp at hnone
  · intro hall
    have hkeep := matchFold_no_update t gs (none, 0) (fun g hg hcond =>
      absurd hcond.2 (not_le.mpr (hall g hg)))
    unfold findMatchingStoryGroup
    rw [hkeep]
  · intro g hsome
    by_cases hex : ∃ g' ∈ gs, SIMILARITY_THRESHOLD ≤ calculateSimilarity t g'.canonicalTitle
    · obtain ⟨g0, hg0, hth0⟩ := hex
      obtain ⟨i, heq, hth, -, hle, hlt⟩ := matchFold_update t gs (none, 0)
        ⟨g0, hg0, lt_of_lt_of_le hθpos hth0, hth0⟩
      unfold findMatchingStoryGroup at hsome
      rw [heq] at hsome
      simp only [Option.some.injEq] at hsome
      refine ⟨i, hsome, ?_, ?_, ?_⟩
      · rw [← hsome]; exact hth
      · intro j; rw [← hsome]; exact hle j
      · intro j hj; rw [← hsome]; exact hlt j hj
    · push_neg at hex
      have hkeep := matchFold_no_update t gs (none, 0) (fun g' hg' hcond =>
        absurd hcond.2 (not_le.mpr (hex g' hg')))
      unfold findMatchingStoryGroup at hsome
      rw [hkeep] at hsome
      simp at hsome

/-- Witness exercising the matcher characterisation: on an empty candidate
list the threshold condition holds vacuously and the matcher returns no
match. -/
theorem matcher_returns_best_witness :
    findMatchingStoryGroup "quantum computer breakthrough" [] = none :=
  (matcher_returns_best "quantum computer breakthrough" []).2.1.mpr (by simp)

/-! ## handler.ts : the poll run over all active sources -/

/-- The PollResult record the handler returns. -/
structure PollResult where
  sourcesProcessed : Nat
  itemsFound : Nat
  newItemsSaved : Nat
  errors : List String
deriving Repr, DecidableEq

/-- Ghost log entry recording which health update a source received. -/
inductive HealthEvent where
  | success (sourceId : String)
  | failure (sourceId : String) (message : String)
deriving Repr, DecidableEq

/-- Whole-table effect of `updateSourceSuccess`, keyed by source id. -/
def updateSourceSuccessTable (tbl : List Source) (sourceId : String)
    (now : Nat) : List Source :=
  tbl.map (fun s => if s.id == sourceId then updateSourceSuccess s now else s)

/-- State carried across the source loop of the poll handler: the Source
table, the ingestion loop state, and the ghost log of health updates. -/
structure PollState where
  sources : List Source
  loop : LoopState
  healthLog : List HealthEvent
deriving Repr, DecidableEq

/-- One iteration of the source loop in handler.ts: on a fetch error,
record the error string and route the source to `updateSourceError`; on a
fetch success, count the items, run the ingestion loop when the feed is
nonempty — collecting the per-item catch strings of failed writes into the
result's error list — and route the source to `updateSourceSuccess`. -/
def pollStep (fetch : String → Except String (List RSSItem))
    (saveOk : RSSItem → Bool) (now : Nat)
    (acc : PollResult × PollState) (source : Source) : PollResult × PollState :=
  match fetch source.url with
  | Except.error message =>
      ({ acc.1 with
          errors := acc.1.errors ++ ["Source " ++ source.name ++ ": " ++ message] },
       { acc.2 with
          sources := updateSourceErrorTable acc.2.sources source.id message now
          healthLog := acc.2.healthLog ++ [HealthEvent.failure source.id message] })
  | Except.ok items =>
      let results1 := { acc.1 with itemsFound := acc.1.itemsFound + items.length }
      if items.isEmpty then
        ({ results1 with sourcesProcessed := results1.sourcesProcessed + 1 },
         { acc.2 with
            sources := updateSourceSuccessTable acc.2.sources source.id now
            healthLog := acc.2.healthLog ++ [HealthEvent.success source.id] })
      else
        let loop1 := processSource source saveOk now
          { acc.2.loop with errors := [] } items
        ({ results1 with
            sourcesProcessed := results1.sourcesProcessed + 1
            newItemsSaved := loop1.saved
            errors := results1.errors ++ loop1.errors },
         { acc.2 with
            loop := loop1
            sources := updateSourceSuccessTable acc.2.sources source.id now
            healthLog := acc.2.healthLog ++ [HealthEvent.success source.id] })

/-- The poll handler body: zeroed result record folded over the sources. -/
def pollRun (fetch : String → Except String (List RSSItem))
    (saveOk : RSSItem → Bool) (now : Nat)
    (sources : List Source) (st0 : PollState) : PollResult × PollState :=
  sources.foldl (pollStep fetch saveOk now)
    ({ sourcesProcessed := 0, itemsFound := 0, newItemsSaved := 0, errors := [] }, st0)

/-- Whether a fetch outcome is a success. -/
def fetchOk (r : Except String (List RSSItem)) : Bool :=
  match r with
  | Except.ok _ => true
  | Except.error _ => false

/-- The per-source item count the run adds to `itemsFound`. -/
def fetchedCount (fetch : String → Except String (List RSSItem))
    (s : Source) : Nat :=
  match fetch s.url with
  | Except.ok items => items.length
  | Except.error _ => 0

/-- The error string a failing source contributes, none on success. -/
def fetchErrorString (fetch : String → Except String (List RSSItem))
    (s : Source) : Option String :=
  match fetch s.url with
  | Except.error m => some ("Source " ++ s.name ++ ": " ++ m)
  | Except.ok _ => none

/-- The health update a source receives, by fetch outcome. -/
def healthEventOf (fetch : String → Except String (List RSSItem))
    (s : Source) : HealthEvent :=
  match fetch s.url with
  | Except.ok _ => HealthEvent.success s.id
  | Except.error m => HealthEvent.failure s.id m

/-- Counter bookkeeping of the source loop: processed sources, items found
and health updates accumulate per source by fetch outcome alone. -/
lemma pollFold_counters (fetch : String → Except String (List RSSItem))
    (saveOk : RSSItem → Bool) (now : Nat) :
    ∀ (srcs : List Source) (acc : PollResult × PollState),
    (srcs.foldl (pollStep fetch saveOk now) acc).1.sourcesProcessed
        = acc.1.sourcesProcessed + srcs.countP (fun s => fetchOk (fetch s.url))
    ∧ (srcs.foldl (pollStep fetch saveOk now) acc).1.itemsFound
        = acc.1.itemsFound + (srcs.map (fetchedCount fetch)).sum
    ∧ (srcs.foldl (pollStep fetch saveOk now) acc).2.healthLog
        = acc.2.healthLog ++ srcs.map (healthEventOf fetch)
  | [], acc => by simp
  | src :: rest, acc => by
    rw [List.foldl_cons]
    obtain ⟨ihp, ihf, ihh⟩ :=
      pollFold_counters fetch saveOk now rest (pollStep fetch saveOk now acc src)
    rw [List.countP_cons, List.map_cons, List.sum_cons, List.map_cons]
    cases hf : fetch src.url with
    | error m =>
      simp only [pollStep, hf] at ihp ihf ihh ⊢
      refine ⟨?_, ?_, ?_⟩
      · rw [ihp]; simp [fetchOk]
      · rw [ihf]; simp [fetchedCount, hf]; try omega
      · rw [ihh]; simp [healthEventOf, hf, List.append_assoc]
    | ok items =>
      simp only [pollStep, hf] at ihp ihf ihh ⊢
      by_cases he : items.isEmpty
      · simp only [he, if_true] at ihp ihf ihh ⊢
        refine ⟨?_, ?_, ?_⟩
        · rw [ihp]; simp [fetchOk]; try omega
        · rw [ihf]; simp [fetchedCount, hf]; try omega
        · rw [ihh]; simp [healthEventOf, hf, List.append_assoc]
      · simp only [he, if_false] at ihp ihf ihh ⊢
        refine ⟨?_, ?_, ?_⟩
        · rw [ihp]; simp [fetchOk]; try omega
        · rw [ihf]; simp [fetchedCount, hf]; try omega
        · rw [ihh]; simp [healthEventOf, hf, List.append_assoc]

/-- Effect of one loop iteration on the error list: the catch block's
string is appended exactly for a fresh external id whose write fails. -/
lemma processItem_errors (src : Source) (existing : List String)
    (saveOk : RSSItem → Bool) (now : Nat) (st : LoopState) (item : RSSItem) :
    (processItem src existing saveOk now st item).errors =
      st.errors ++
        (if !existing.contains item.externalId && !saveOk item
         then ["Failed to save: " ++ item.title] else []) := by
  cases hc : existing.contains item.externalId with
  | true => rw [processItem_skip _ _ _ _ _ _ hc]; simp [hc]
  | false =>
    cases hok : saveOk item with
    | false =>
      rw [(processItem_failed src existing saveOk now st item hc hok).2.2]
      simp [hc, hok]
    | true =>
      unfold processItem
      rw [hc, hok]
      simp only [Bool.false_eq_true, if_false, if_true]
      cases h : findMatchingStoryGroup (normalizeTitle item.title) st.recent <;>
        simp

/-- The error strings the per-item catch appends over one batch. -/
def itemErrorStrings (existing : List String) (saveOk : RSSItem → Bool)
    (items : List RSSItem) : List String :=
  (items.filter (fun it => !existing.contains it.externalId && !saveOk it)).map
    (fun it => "Failed to save: " ++ it.title)

/-- The item loop appends exactly the catch block's error strings. -/
lemma foldl_processItem_errors (src : Source) (existing : List String)
    (saveOk : RSSItem → Bool) (now : Nat) :
    ∀ (items : List RSSItem) (st : LoopState),
    (items.foldl (processItem src existing saveOk now) st).errors
      = st.errors ++ itemErrorStrings existing saveOk items
  | [], st => by simp [itemErrorStrings]
  | item :: rest, st => by
    rw [List.foldl_cons, foldl_processItem_errors src existing saveOk now rest _,
      processItem_errors]
    simp only [itemErrorStrings, List.filter_cons]
    cases hg : (!existing.contains item.externalId && !saveOk item) <;>
      simp [hg, List.append_assoc]

/-- `processSource` appends exactly the catch block's error strings,
computed against its own existing-id set. -/
lemma processSource_errors (src : Source) (saveOk : RSSItem → Bool) (now : Nat)
    (st : LoopState) (items : List RSSItem) :
    (processSource src saveOk now st items).errors
      = st.errors ++ itemErrorStrings
          (getExistingExternalIds st.feedItems src.id
            (items.map (fun it => it.externalId))) saveOk items := by
  unfold processSource
  exact foldl_processItem_errors src _ saveOk now items st

/-- Every per-item error string is a "Failed to save" message. -/
lemma mem_itemErrorStrings (existing : List String) (saveOk : RSSItem → Bool)
    (items : List RSSItem) :
    ∀ e ∈ itemErrorStrings existing saveOk items,
      ∃ t, e = "Failed to save: " ++ t := by
  intro e he
  simp only [itemErrorStrings, List.mem_map] at he
  obtain ⟨it, -, rfl⟩ := he
  exact ⟨it.title, rfl⟩

/-- With every write succeeding, no per-item error string is produced. -/
lemma itemErrorStrings_all_ok (existing : List String) (saveOk : RSSItem → Bool)
    (items : List RSSItem) (hall : ∀ it ∈ items, saveOk it = true) :
    itemErrorStrings existing saveOk items = [] := by
  have hfil : items.filter
      (fun it => !existing.contains it.externalId && !saveOk it) = [] := by
    rw [List.filter_eq_nil_iff]
    intro it hit
    simp [hall it hit]
  rw [itemErrorStrings, hfil, List.map_nil]

/-- Shape of the error list: every entry is either the source-level string
of a failing source of the run, or a per-item "Failed to save" string. -/
lemma pollFold_errors_shape (fetch : String → Except String (List RSSItem))
    (saveOk : RSSItem → Bool) (now : Nat) :
    ∀ (srcs : List Source) (acc : PollResult × PollState),
    ∀ e ∈ (srcs.foldl (pollStep fetch saveOk now) acc).1.errors,
      e ∈ acc.1.errors
      ∨ (∃ s ∈ srcs, ∃ m, fetch s.url = Except.error m
          ∧ e = "Source " ++ s.name ++ ": " ++ m)
      ∨ (∃ t, e = "Failed to save: " ++ t)
  | [], acc => by
    intro e he
    exact Or.inl he
  | src :: rest, acc => by
    intro e he
    rw [List.foldl_cons] at he
    rcases pollFold_errors_shape fetch saveOk now rest
        (pollStep fetch saveOk now acc src) e he with hmem | hrest | hsave
    · cases hf : fetch src.url with
      | error m =>
        simp only [pollStep, hf] at hmem
        rcases List.mem_append.mp hmem with h1 | h2
        · exact Or.inl h1
        · refine Or.inr (Or.inl ⟨src, List.mem_cons_self src rest, m, hf, ?_⟩)
          simpa using h2
      | ok items =>
        by_cases hemp : items.isEmpty
        · simp only [pollStep, hf, hemp, if_true] at hmem
          exact Or.inl hmem
        · simp only [pollStep, hf, hemp, Bool.false_eq_true, if_false] at hmem
          rcases List.mem_append.mp hmem with h1 | h2
          · exact Or.inl h1
          · rw [processSource_errors] at h2
            rcases List.mem_append.mp h2 with h3 | h3
            · exact absurd h3 (List.not_mem_nil e)
            · exact Or.inr (Or.inr (mem_itemErrorStrings _ _ _ e h3))
    · obtain ⟨s, hs, m, hfm, hee⟩ := hrest
      exact Or.inr (Or.inl ⟨s, List.mem_cons_of_mem _ hs, m, hfm, hee⟩)
    · exact Or.inr (Or.inr hsave)

/-- With every write succeeding, the error list holds exactly the strings
of the failing sources. -/
lemma pollFold_errors_total (fetch : String → Except String (List RSSItem))
    (saveOk : RSSItem → Bool) (now : Nat)
    (hall : ∀ it, saveOk it = true) :
    ∀ (srcs : List Source) (acc : PollResult × PollState),
    (srcs.foldl (pollStep fetch saveOk now) acc).1.errors
      = acc.1.errors ++ srcs.filterMap (fetchErrorString fetch)
  | [], acc => by simp
  | src :: rest, acc => by
    rw [List.foldl_cons,
      pollFold_errors_total fetch saveOk now hall rest (pollStep fetch saveOk now acc src),
      List.filterMap_cons]
    cases hf : fetch src.url with
    | error m =>
      simp only [pollStep, hf]
      simp [fetchErrorString, hf, List.append_assoc]
    | ok items =>
      by_cases hemp : items.isEmpty
      · simp only [pollStep, hf, hemp, if_true]
        simp [fetchErrorString, hf]
      · simp only [pollStep, hf, hemp, Bool.false_eq_true, if_false]
        rw [processSource_errors, itemErrorStrings_all_ok _ _ _ (fun it _ => hall it)]
        simp [fetchErrorString, hf]

/-- One loop iteration increases the saved counter exactly by the number
of rows it appends. -/
lemma processItem_saved_len (src : Source) (existing : List String)
    (saveOk : RSSItem → Bool) (now : Nat)
    (st : LoopState) (item : RSSItem) :
    (processItem src existing saveOk now st item).saved + st.feedItems.length
      = st.saved + (processItem src existing saveOk now st item).feedItems.length := by
  cases hc : existing.contains item.externalId with
  | true => rw [processItem_skip _ _ _ _ _ _ hc]
  | false =>
    cases hok : saveOk item with
    | true =>
      obtain ⟨r, hfi, -, -, -, -, -, -, hsaved⟩ :=
        processItem_append src existing saveOk now st item hc hok
      rw [hfi, hsaved, List.length_append]
      simp
      omega
    | false =>
      obtain ⟨hfi, hsaved, -⟩ := processItem_failed src existing saveOk now st item hc hok
      rw [hfi, hsaved]

/-- The item loop increases the saved counter exactly by the number of
rows it appends. -/
lemma foldl_processItem_saved_len (src : Source) (existing : List String)
    (saveOk : RSSItem → Bool) (now : Nat) :
    ∀ (items : List RSSItem) (st : LoopState),
    (items.foldl (processItem src existing saveOk now) st).saved + st.feedItems.length
      = st.saved + (items.foldl (processItem src existing saveOk now) st).feedItems.length
  | [], st => rfl
  | item :: rest, st => by
    rw [List.foldl_cons]
    have h1 := processItem_saved_len src existing saveOk now st item
    have h2 := foldl_processItem_saved_len src existing saveOk now rest
      (processItem src existing saveOk now st item)
    omega

/-- `processSource` increases the saved counter exactly by the number of
rows it appends. -/
lemma processSource_saved_len (src : Source) (saveOk : RSSItem → Bool) (now : Nat)
    (st : LoopState) (items : List RSSItem) :
    (processSource src saveOk now st items).saved + st.feedItems.length
      = st.saved + (processSource src saveOk now st items).feedItems.length := by
  unfold processSource
  exact foldl_processItem_saved_len src _ saveOk now items st

/-- Across the source loop, `newItemsSaved` stays equal to the loop's
saved counter and grows exactly by the number of rows appended to the
FeedItem table. -/
lemma pollFold_saved (fetch : String → Except String (List RSSItem))
    (saveOk : RSSItem → Bool) (now : Nat) :
    ∀ (srcs : List Source) (acc : PollResult × PollState),
    acc.1.newItemsSaved = acc.2.loop.saved →
    (srcs.foldl (pollStep fetch saveOk now) acc).1.newItemsSaved
        = (srcs.foldl (pollStep fetch saveOk now) acc).2.loop.saved
    ∧ (srcs.foldl (pollStep fetch saveOk now) acc).2.loop.saved
          + acc.2.loop.feedItems.length
        = acc.2.loop.saved
          + (srcs.foldl (pollStep fetch saveOk now) acc).2.loop.feedItems.length
  | [], acc, h => ⟨h, rfl⟩
  | src :: rest, acc, h => by
    rw [List.foldl_cons]
    cases hf : fetch src.url with
    | error m =>
      have ih := pollFold_saved fetch saveOk now rest (pollStep fetch saveOk now acc src)
        (by simp [pollStep, hf]; exact h)
      refine ⟨ih.1, ?_⟩
      have h2 := ih.2
      simp only [pollStep, hf] at h2 ⊢
      exact h2
    | ok items =>
      by_cases he : items.isEmpty
      · have ih := pollFold_saved fetch saveOk now rest (pollStep fetch saveOk now acc src)
          (by simp [pollStep, hf, he]; exact h)
        refine ⟨ih.1, ?_⟩
        have h2 := ih.2
        simp [pollStep, hf, he] at h2 ⊢
        exact h2
      · have ih := pollFold_saved fetch saveOk now rest (pollStep fetch saveOk now acc src)
          (by simp [pollStep, hf, he])
        refine ⟨ih.1, ?_⟩
        have h2 := ih.2
        simp [pollStep, hf, he] at h2 ⊢
        have h3 := processSource_saved_len src saveOk now
          { acc.2.loop with errors := ([] : List String) } items
        simp at h3
        omega

/-- C9 (amended): for every poll run, the result reports the number of
sources whose fetch succeeded as processed and the total number of items
found; each source receives exactly one health update — a failure routing
to `updateSourceError` for the failing sources and a success routing to
`updateSourceSuccess` for all others, regardless of write failures —
`newItemsSaved` counts exactly the rows appended to the FeedItem table;
every error entry is either a failing source's "Source <name>: <message>"
string or a per-item "Failed to save: <title>" string from the per-item
catch (which does not alter the source's success routing); and when every
write succeeds the error list is exactly the failing sources' strings. -/
theorem poll_failures_isolated (fetch : String → Except String (List RSSItem))
    (saveOk : RSSItem → Bool) (now : Nat) (srcs : List Source) (st0 : PollState)
    (hsaved : st0.loop.saved = 0) :
    (pollRun fetch saveOk now srcs st0).1.sourcesProcessed
        = srcs.countP (fun s => fetchOk (fetch s.url))
    ∧ (pollRun fetch saveOk now srcs st0).1.itemsFound
        = (srcs.map (fetchedCount fetch)).sum
    ∧ (pollRun fetch saveOk now srcs st0).2.healthLog
        = st0.healthLog ++ srcs.map (healthEventOf fetch)
    ∧ (pollRun fetch saveOk now srcs st0).1.newItemsSaved + st0.loop.feedItems.length
        = (pollRun fetch saveOk now srcs st0).2.loop.feedItems.length
    ∧ (∀ e ∈ (pollRun fetch saveOk now srcs st0).1.errors,
        (∃ s ∈ srcs, ∃ m, fetch s.url = Except.error m
            ∧ e = "Source " ++ s.name ++ ": " ++ m)
        ∨ (∃ t, e = "Failed to save: " ++ t))
    ∧ ((∀ it, saveOk it = true) →
        (pollRun fetch saveOk now srcs st0).1.errors
          = srcs.filterMap (fetchErrorString fetch)) := by
  obtain ⟨hp, hf, hh⟩ := pollFold_counters fetch saveOk now srcs
    ({ sourcesProcessed := 0, itemsFound := 0, newItemsSaved := 0, errors := [] }, st0)
  obtain ⟨hs1, hs2⟩ := pollFold_saved fetch saveOk now srcs
    ({ sourcesProcessed := 0, itemsFound := 0, newItemsSaved := 0, errors := [] }, st0)
    (by simpa using hsaved.symm)
  refine ⟨?_, ?_, ?_, ?_, ?_, ?_⟩
  · rw [pollRun, hp]; simp
  · rw [pollRun, hf]; simp
  · rw [pollRun, hh]
  · rw [pollRun, hs1]
    have h4 := hs2
    simp at h4
    omega
  · intro e he
    rcases pollFold_errors_shape fetch saveOk now srcs
        ({ sourcesProcessed := 0, itemsFound := 0, newItemsSaved := 0, errors := [] }, st0)
        e he with hmem | hrest | hsave
    · exact absurd hmem (List.not_mem_nil e)
    · exact Or.inl hrest
    · exact Or.inr hsave
  · intro hall
    rw [pollRun, pollFold_errors_total fetch saveOk now hall srcs]
    simp

/-- A second source whose fetch will fail. -/
def unreachableSource : Source :=
  { id := "s2", url := "https://down.example.com/feed", name := "Down",
    isActive := true, consecutiveErrors := 0, lastError := none,
    lastPolledAt := none, lastSuccessAt := none }

/-- A concrete fetch oracle: one reachable feed, everything else failing. -/
def demoFetch : String → Except String (List RSSItem) :=
  fun url => if url == "https://example.com/feed"
    then Except.ok [sampleItem] else Except.error "HTTP 500"

/-- A concrete initial poll state over the two demo sources. -/
def demoPollState : PollState :=
  { sources := [sampleSource, unreachableSource], loop := emptyLoopState,
    healthLog := [] }

/-- Witness for the poll-run theorem at the two-source demo input, one
fetch succeeding and one failing, with every write succeeding. -/
theorem poll_failures_isolated_witness :
    (pollRun demoFetch (fun _ => true) 1000
        [sampleSource, unreachableSource] demoPollState).1.sourcesProcessed
        = [sampleSource, unreachableSource].countP (fun s => fetchOk (demoFetch s.url))
    ∧ (pollRun demoFetch (fun _ => true) 1000
        [sampleSource, unreachableSource] demoPollState).1.itemsFound
        = ([sampleSource, unreachableSource].map (fetchedCount demoFetch)).sum
    ∧ (pollRun demoFetch (fun _ => true) 1000
        [sampleSource, unreachableSource] demoPollState).2.healthLog
        = demoPollState.healthLog
            ++ [sampleSource, unreachableSource].map (healthEventOf demoFetch)
    ∧ (pollRun demoFetch (fun _ => true) 1000
        [sampleSource, unreachableSource] demoPollState).1.newItemsSaved
          + demoPollState.loop.feedItems.length
        = (pollRun demoFetch (fun _ => true) 1000
            [sampleSource, unreachableSource] demoPollState).2.loop.feedItems.length
    ∧ (pollRun demoFetch (fun _ => true) 1000
        [sampleSource, unreachableSource] demoPollState).1.errors
        = [sampleSource, unreachableSource].filterMap (fetchErrorString demoFetch) := by
  obtain ⟨h1, h2, h3, h4, -, h6⟩ :=
    poll_failures_isolated demoFetch (fun _ => true) 1000
      [sampleSource, unreachableSource] demoPollState rfl
  exact ⟨h1, h2, h3, h4, h6 (fun it => rfl)⟩

/-- A write oracle failing every save. -/
def failingSaves : RSSItem → Bool := fun _ => false

/-- C9 counterexample to the spec's routing sentence: a source whose fetch
succeeds but whose only item's write fails still records success — the
per-item catch swallows the write error, appends "Failed to save: <title>"
to the result, and the run reaches `updateSourceSuccess`, never
`updateSourceError`. -/
theorem poll_write_failure_counterexample :
    (pollRun demoFetch failingSaves 1000 [sampleSource] demoPollState).2.healthLog
        = [HealthEvent.success sampleSource.id]
    ∧ (pollRun demoFetch failingSaves 1000 [sampleSource] demoPollState).1.errors
        = ["Failed to save: " ++ sampleItem.title]
    ∧ (pollRun demoFetch failingSaves 1000 [sampleSource] demoPollState).1.sourcesProcessed
        = 1
    ∧ (pollRun demoFetch failingSaves 1000 [sampleSource] demoPollState).1.newItemsSaved
        = 0 := by
  decide

/-! ## data-cleanup db.ts : deletion choreography -/

/-- `decrementStoryGroupCount` of the cleanup db.ts: blind additive
decrement of the stored count, keyed by group id (a missing group is a
no-op; the auto-managed `updatedAt` stamp is not modelled). -/
def decrementStoryGroupCount (sgTable : List StoryGroup) (storyGroupId : String)
    (count : Int) : List StoryGroup :=
  sgTable.map (fun g =>
    if g.id == storyGroupId then { g with itemCount := g.itemCount - count } else g)

/-- Total decrement an association list of (groupId, count) pairs applies
to one group id. -/
def decTotal (ds : List (String × Nat)) (k : String) : Nat :=
  ((ds.filter (fun kc => kc.1 == k)).map (fun kc => kc.2)).sum

/-- A row carrying a deletion marker (`deletedSourceId`, or the legacy
`deletedFeedId`). -/
def hasDeletionMarker (it : FeedItemRec) : Bool :=
  it.deletedSourceId.isSome || it.deletedFeedId.isSome

/-- Fuelled batching; with fuel at least the list length this splits the
list into chunks of at most 25. -/
def chunks25Fuel : Nat → List FeedItemRec → List (List FeedItemRec)
  | _, [] => []
  | 0, _ :: _ => []
  | n + 1, x :: xs => (x :: xs.take 24) :: chunks25Fuel n (xs.drop 24)

/-- The batches of at most 25 rows the BatchWrite loop issues. -/
def chunks25 (l : List FeedItemRec) : List (List FeedItemRec) :=
  chunks25Fuel l.length l

/-- Page size of the sweep's scan (`Limit: 100`). -/
def SWEEP_PAGE_LIMIT : Nat := 100

/-- Fuelled model of the sweep's paginated scan loop: each iteration
examines one page of at most 100 rows and keeps its marker-carrying rows;
a page with no marked row aborts the loop (the `items.length === 0`
break), and the loop also ends once no rows remain to examine
(LastEvaluatedKey absent). With fuel at least the table length the fuel
never runs out. -/
def sweepPagesFuel : Nat → List FeedItemRec → List (List FeedItemRec)
  | _, [] => []
  | 0, _ :: _ => []
  | fuel + 1, x :: xs =>
    let items := ((x :: xs).take SWEEP_PAGE_LIMIT).filter hasDeletionMarker
    if items.isEmpty then []
    else if ((x :: xs).drop SWEEP_PAGE_LIMIT).isEmpty then [items]
    else items :: sweepPagesFuel fuel ((x :: xs).drop SWEEP_PAGE_LIMIT)

/-- The marker-carrying rows the sweep's scan visits before its loop ends. -/
def sweepVisited (feedItems : List FeedItemRec) : List FeedItemRec :=
  (sweepPagesFuel feedItems.length feedItems).flatten

/-- The delete batches the sweep issues: each visited page's marked rows
in chunks of at most 25. -/
def sweepBatches (feedItems : List FeedItemRec) : List (List FeedItemRec) :=
  ((sweepPagesFuel feedItems.length feedItems).map chunks25).flatten

/-- `deleteMarkedFeedItems` of the cleanup db.ts: page through the table
collecting marker-carrying rows until a markless page aborts the loop,
delete the collected rows (keyed by id) in batches of at most 25, and
return the number deleted. -/
def deleteMarkedFeedItems (feedItems : List FeedItemRec) : List FeedItemRec × Nat :=
  let batches := sweepBatches feedItems
  let remaining := batches.foldl
    (fun tbl batch => tbl.filter
      (fun it => !(batch.map (fun b => b.id)).contains it.id)) feedItems
  let deletedCount := batches.foldl (fun c batch => c + batch.length) 0
  (remaining, deletedCount)

/-- `markFeedItemsForDeletion` of the cleanup db.ts: on every row of the
source, set `deletedSourceId` and the fast-track expiry `now + 1 hour`;
decrement each referenced group's count by one; return the number of rows
marked. -/
def markFeedItemsForDeletion (feedItems : List FeedItemRec)
    (sgTable : List StoryGroup) (sourceId : String) (now : Nat) :
    List FeedItemRec × List StoryGroup × Nat :=
  let expireSoon := now + 60 * 60
  let targets := feedItems.filter (fun it => it.sourceId == sourceId)
  let feedItems1 := feedItems.map (fun it =>
    if it.sourceId == sourceId
    then { it with deletedSourceId := some sourceId, expiresAt := expireSoon }
    else it)
  let sgTable1 := targets.foldl (fun tbl it =>
    if it.storyGroupId == "" then tbl
    else decrementStoryGroupCount tbl it.storyGroupId 1) sgTable
  (feedItems1, sgTable1, targets.length)

/-- `deleteSource` of the cleanup db.ts: remove the Source row by key. -/
def deleteSource (sources : List Source) (sourceId : String) : List Source :=
  sources.filter (fun s => !(s.id == sourceId))

/-- The three tables the cleanup lambda touches. -/
structure CleanupDB where
  sources : List Source
  feedItems : List FeedItemRec
  sgTable : List StoryGroup
deriving Repr, DecidableEq

/-- The result record of the deleteSourceWithCleanup mutation. -/
structure DeleteSourceResult where
  success : Bool
  itemsMarked : Nat
  error : Option String
deriving Repr, DecidableEq

/-- `handleDeleteSourceMutation`: mark the source's feed items, delete the
Source row, and return success with the marked count. -/
def handleDeleteSourceMutation (db : CleanupDB) (sourceId : String) (now : Nat) :
    CleanupDB × DeleteSourceResult :=
  let marked := markFeedItemsForDeletion db.feedItems db.sgTable sourceId now
  let sources1 := deleteSource db.sources sourceId
  ({ sources := sources1, feedItems := marked.1, sgTable := marked.2.1 },
   { success := true, itemsMarked := marked.2.2, error := none })

/-! ## data-cleanup handler : change-stream decrement batching -/

/-- The prior image a stream record may carry (its storyGroupId attribute,
when present). -/
structure StreamOldImage where
  storyGroupId : Option String
deriving Repr, DecidableEq

/-- One DynamoDB stream record: the event name and the optional old image. -/
structure StreamRecord where
  eventName : String
  oldImage : Option StreamOldImage
deriving Repr, DecidableEq

/-- The group id a stream record contributes to the decrement tally: only
REMOVE records carrying an old image with a non-empty storyGroupId. -/
def extractRemovedGroupId (r : StreamRecord) : Option String :=
  if r.eventName == "REMOVE" then
    match r.oldImage with
    | some img =>
        match img.storyGroupId with
        | some sgid => if sgid == "" then none else some sgid
        | none => none
    | none => none
  else none

/-- One `map.set(key, (map.get(key) || 0) + 1)` step on the
insertion-ordered tally. -/
def bumpTally (acc : List (String × Nat)) (k : String) : List (String × Nat) :=
  if acc.any (fun kc => kc.1 == k)
  then acc.map (fun kc => if kc.1 == k then (kc.1, kc.2 + 1) else kc)
  else acc ++ [(k, 1)]

/-- The per-group decrement tally `handleStreamEvent` accumulates over a
whole stream batch. -/
def collectDecrements (records : List StreamRecord) : List (String × Nat) :=
  records.foldl (fun acc r =>
    match extractRemovedGroupId r with
    | some sgid => bumpTally acc sgid
    | none => acc) []

/-- The StoryGroup-table effect of `handleStreamEvent`: apply each tallied
group's total decrement as a single update. -/
def handleStreamEventGroups (sgTable : List StoryGroup)
    (records : List StreamRecord) : List StoryGroup :=
  (collectDecrements records).foldl
    (fun tbl kc => decrementStoryGroupCount tbl kc.1 (kc.2 : Int)) sgTable

/-! ## Tally and decrement lemmas -/

lemma decTotal_nil (k : String) : decTotal [] k = 0 := rfl

lemma decTotal_cons (x : String × Nat) (l : List (String × Nat)) (k : String) :
    decTotal (x :: l) k = (if x.1 == k then x.2 else 0) + decTotal l k := by
  by_cases h : x.1 == k <;> simp [decTotal, List.filter_cons, h]

lemma decTotal_append (l1 l2 : List (String × Nat)) (k : String) :
    decTotal (l1 ++ l2) k = decTotal l1 k + decTotal l2 k := by
  induction l1 with
  | nil => simp [decTotal_nil]
  | cons x l ih => simp [List.cons_append, decTotal_cons, ih]; omega

lemma decTotal_eq_zero_of_not_mem (t : List (String × Nat)) (k : String)
    (h : k ∉ t.map Prod.fst) : decTotal t k = 0 := by
  induction t with
  | nil => rfl
  | cons x t ih =>
    simp only [List.map_cons, List.mem_cons] at h
    push_neg at h
    rw [decTotal_cons, beq_eq_false_iff_ne.mpr (fun he => h.1 he.symm)]
    simpa using ih h.2

lemma entry_eq_decTotal (t : List (String × Nat)) (k : String) (c : Nat)
    (hnodup : (t.map Prod.fst).Nodup) (hmem : (k, c) ∈ t) :
    decTotal t k = c := by
  induction t with
  | nil => simp at hmem
  | cons x t ih =>
    simp only [List.map_cons, List.nodup_cons] at hnodup
    rcases List.mem_cons.mp hmem with heq | hmem'
    · cases heq.symm
      rw [decTotal_cons]
      have h0 : decTotal t k = 0 :=
        decTotal_eq_zero_of_not_mem t k (by simpa using hnodup.1)
      simp [h0]
    · by_cases hx : x.1 = k
      · exact absurd (hx ▸ List.mem_map_of_mem Prod.fst hmem') hnodup.1
      · rw [decTotal_cons, beq_eq_false_iff_ne.mpr hx]
        simpa using ih hnodup.2 hmem'

/-- Key presence in a tally, as the `.any` test of `bumpTally`. -/
lemma any_key_iff (acc : List (String × Nat)) (k0 : String) :
    acc.any (fun kc => kc.1 == k0) = true ↔ k0 ∈ acc.map Prod.fst := by
  rw [List.any_eq_true]
  simp only [beq_iff_eq, List.mem_map]

/-- Bumping a key keeps the key list, or appends the new key at the end. -/
lemma bumpTally_keys (acc : List (String × Nat)) (k0 : String) :
    (bumpTally acc k0).map Prod.fst =
      if acc.any (fun kc => kc.1 == k0) then acc.map Prod.fst
      else acc.map Prod.fst ++ [k0] := by
  unfold bumpTally
  by_cases hany : acc.any (fun kc => kc.1 == k0)
  · rw [if_pos hany, if_pos hany, List.map_map]
    apply List.map_congr_left
    intro kc _
    by_cases h : kc.1 = k0 <;> simp [h]
  · rw [if_neg hany, if_neg hany, List.map_append]
    simp

lemma bumpTally_nodup (acc : List (String × Nat)) (k0 : String)
    (h : (acc.map Prod.fst).Nodup) : ((bumpTally acc k0).map Prod.fst).Nodup := by
  rw [bumpTally_keys]
  by_cases hany : acc.any (fun kc => kc.1 == k0)
  · rw [if_pos hany]; exact h
  · rw [if_neg hany, List.nodup_append]
    refine ⟨h, by simp, ?_⟩
    intro k hk1 hk2
    simp only [List.mem_singleton] at hk2
    subst hk2
    exact absurd ((any_key_iff acc k).mpr hk1) hany

/-- Bumping a key adds one to the contribution of entries whose key is the
bumped one and leaves other keys' contributions unchanged. -/
lemma decTotal_map_bump_ne (k0 k : String) (hne : k0 ≠ k) :
    ∀ acc : List (String × Nat),
    decTotal (acc.map (fun kc => if kc.1 == k0 then (kc.1, kc.2 + 1) else kc)) k
      = decTotal acc k
  | [] => by simp [decTotal_nil]
  | kc :: acc => by
    rw [List.map_cons, decTotal_cons, decTotal_cons, decTotal_map_bump_ne k0 k hne acc]
    by_cases h0 : kc.1 = k0
    · have hk : (k0 == k) = false := beq_eq_false_iff_ne.mpr hne
      simp [h0, hk]
    · simp [h0]

lemma decTotal_map_bump_eq (k0 : String) : ∀ acc : List (String × Nat),
    decTotal (acc.map (fun kc => if kc.1 == k0 then (kc.1, kc.2 + 1) else kc)) k0
      = decTotal acc k0 + acc.countP (fun kc => kc.1 == k0)
  | [] => by simp [decTotal_nil]
  | kc :: acc => by
    rw [List.map_cons, decTotal_cons, decTotal_cons, List.countP_cons,
      decTotal_map_bump_eq k0 acc]
    by_cases h0 : kc.1 = k0 <;> simp [h0] <;> omega

/-- Under distinct keys, a present key is carried by exactly one entry. -/
lemma countP_key_eq_one (acc : List (String × Nat)) (k0 : String)
    (hnodup : (acc.map Prod.fst).Nodup) (hmem : k0 ∈ acc.map Prod.fst) :
    acc.countP (fun kc => kc.1 == k0) = 1 := by
  have h1 : acc.countP (fun kc => kc.1 == k0) = (acc.map Prod.fst).count k0 :=
    (List.countP_map (fun x => x == k0) Prod.fst acc).symm
  rw [h1]
  exact List.count_eq_one_of_mem hnodup hmem

/-- One bump adds exactly one to the bumped key's total and nothing to any
other key's. -/
lemma bumpTally_decTotal (acc : List (String × Nat)) (k0 k : String)
    (hnodup : (acc.map Prod.fst).Nodup) :
    decTotal (bumpTally acc k0) k
      = decTotal acc k + if k0 == k then 1 else 0 := by
  unfold bumpTally
  by_cases hany : acc.any (fun kc => kc.1 == k0)
  · rw [if_pos hany]
    by_cases hk : k0 = k
    · subst hk
      rw [decTotal_map_bump_eq,
        countP_key_eq_one acc k0 hnodup ((any_key_iff acc k0).mp hany)]
      simp
    · rw [decTotal_map_bump_ne k0 k hk acc, beq_eq_false_iff_ne.mpr hk]
      simp
  · rw [if_neg hany, decTotal_append, decTotal_cons, decTotal_nil]
    simp

/-- Folding a key list into the tally keeps the keys distinct and makes
each key's total equal to its number of occurrences. -/
lemma tallyFold_props : ∀ (ks : List String) (acc : List (String × Nat)),
    (acc.map Prod.fst).Nodup →
    ((ks.foldl bumpTally acc).map Prod.fst).Nodup
    ∧ (∀ k, decTotal (ks.foldl bumpTally acc) k = decTotal acc k + ks.count k)
  | [], acc, h => ⟨h, by simp⟩
  | k0 :: ks, acc, h => by
    rw [List.foldl_cons]
    obtain ⟨ihn, ihd⟩ := tallyFold_props ks (bumpTally acc k0) (bumpTally_nodup acc k0 h)
    refine ⟨ihn, ?_⟩
    intro k
    rw [ihd k, bumpTally_decTotal acc k0 k h, List.count_cons]
    by_cases hk : k = k0
    · subst hk
      simp
      omega
    · rw [beq_eq_false_iff_ne.mpr (Ne.symm hk)]
      simp

/-- The batch tally of `handleStreamEvent` is the bump-fold of the ids
extracted from the REMOVE records. -/
lemma collectDecrements_eq (records : List StreamRecord) :
    collectDecrements records
      = (records.filterMap extractRemovedGroupId).foldl bumpTally [] := by
  suffices h : ∀ (rs : List StreamRecord) (acc : List (String × Nat)),
      rs.foldl (fun acc r => match extractRemovedGroupId r with
        | some sgid => bumpTally acc sgid
        | none => acc) acc
      = (rs.filterMap extractRemovedGroupId).foldl bumpTally acc by
    exact h records []
  intro rs
  induction rs with
  | nil => intro acc; rfl
  | cons r rs ih =>
    intro acc
    rw [List.foldl_cons, List.filterMap_cons]
    cases he : extractRemovedGroupId r with
    | none => simp only [he]; exact ih acc
    | some sgid => simp only [he, List.foldl_cons]; exact ih (bumpTally acc sgid)

/-- The batch tally has distinct keys. -/
lemma collect_nodup (records : List StreamRecord) :
    ((collectDecrements records).map Prod.fst).Nodup := by
  rw [collectDecrements_eq]
  exact (tallyFold_props _ [] (by simp)).1

/-- Each key's tallied total is its number of contributing REMOVE records. -/
lemma collect_decTotal (records : List StreamRecord) (k : String) :
    decTotal (collectDecrements records) k
      = (records.filterMap extractRemovedGroupId).count k := by
  rw [collectDecrements_eq]
  have h := (tallyFold_props (records.filterMap extractRemovedGroupId) [] (by simp)).2 k
  simpa [decTotal_nil] using h

/-- Applying an association list of decrements subtracts each group's
total tallied decrement from its count, in one pass per entry. -/
lemma foldl_decrementPairs : ∀ (ds : List (String × Nat)) (tbl : List StoryGroup),
    ds.foldl (fun tbl kc => decrementStoryGroupCount tbl kc.1 (kc.2 : Int)) tbl
      = tbl.map (fun g => { g with itemCount := g.itemCount - (decTotal ds g.id : Int) })
  | [], tbl => by
    simp only [List.foldl_nil]
    have h : ∀ g ∈ tbl,
        ({ g with itemCount := g.itemCount - (decTotal [] g.id : Int) } : StoryGroup) = g := by
      intro g _
      cases g
      simp [decTotal_nil]
    rw [List.map_congr_left h, List.map_id']
  | kc :: ds, tbl => by
    rw [List.foldl_cons, foldl_decrementPairs ds _]
    unfold decrementStoryGroupCount
    rw [List.map_map]
    apply List.map_congr_left
    intro g _
    simp only [Function.comp]
    by_cases h : g.id = kc.1
    · rw [decTotal_cons]
      simp [h]
      push_cast
      ring
    · rw [decTotal_cons, beq_eq_false_iff_ne.mpr (fun he => h he.symm)]
      have hge : (g.id == kc.1) = false := beq_eq_false_iff_ne.mpr h
      simp [hge]

/-- Every key of the bump-fold comes from the accumulator or the key list. -/
lemma tallyFold_keys_subset : ∀ (ks : List String) (acc : List (String × Nat)),
    ∀ k ∈ (ks.foldl bumpTally acc).map Prod.fst, k ∈ acc.map Prod.fst ∨ k ∈ ks
  | [], acc => by simp
  | k0 :: ks, acc => by
    intro k hk
    rw [List.foldl_cons] at hk
    rcases tallyFold_keys_subset ks (bumpTally acc k0) k hk with h1 | h2
    · rw [bumpTally_keys] at h1
      by_cases hany : acc.any (fun kc => kc.1 == k0)
      · rw [if_pos hany] at h1
        exact Or.inl h1
      · rw [if_neg hany] at h1
        rcases List.mem_append.mp h1 with h1 | h1
        · exact Or.inl h1
        · simp only [List.mem_singleton] at h1
          exact Or.inr (h1 ▸ List.mem_cons_self k0 ks)
    · exact Or.inr (List.mem_cons_of_mem k0 h2)

/-- Every tallied key was extracted from some REMOVE record. -/
lemma collect_keys_subset (records : List StreamRecord) :
    ∀ k ∈ (collectDecrements records).map Prod.fst,
      k ∈ records.filterMap extractRemovedGroupId := by
  rw [collectDecrements_eq]
  intro k hk
  rcases tallyFold_keys_subset _ [] k hk with h | h
  · simp at h
  · exact h

/-- C4: only REMOVE records contribute to the stream tally; the per-group
decrements are accumulated across the whole batch into one entry per group
(the tally's keys are distinct, and an entry (k, c) exists exactly when k
was removed and c is its number of REMOVE records); and the table update
subtracts each group's total in a single update per group. -/
theorem stream_decrements_batched (records : List StreamRecord)
    (sgTable : List StoryGroup) :
    (∀ r : StreamRecord, r.eventName ≠ "REMOVE" → extractRemovedGroupId r = none)
    ∧ ((collectDecrements records).map Prod.fst).Nodup
    ∧ (∀ k c, (k, c) ∈ collectDecrements records ↔
        k ∈ records.filterMap extractRemovedGroupId
        ∧ c = (records.filterMap extractRemovedGroupId).count k)
    ∧ handleStreamEventGroups sgTable records
        = sgTable.map (fun g => { g with itemCount := g.itemCount
            - ((records.filterMap extractRemovedGroupId).count g.id : Int) }) := by
  refine ⟨?_, collect_nodup records, ?_, ?_⟩
  · intro r hr
    unfold extractRemovedGroupId
    rw [beq_eq_false_iff_ne.mpr hr]
    rfl
  · intro k c
    constructor
    · intro hmem
      have hk : k ∈ (collectDecrements records).map Prod.fst :=
        List.mem_map_of_mem Prod.fst hmem
      have hdec := entry_eq_decTotal _ k c (collect_nodup records) hmem
      rw [collect_decTotal] at hdec
      exact ⟨collect_keys_subset records k hk, hdec.symm⟩
    · rintro ⟨hkext, rfl⟩
      have hpos : 0 < (records.filterMap extractRemovedGroupId).count k :=
        List.count_pos_iff.mpr hkext
      have hkmem : k ∈ (collectDecrements records).map Prod.fst := by
        by_contra hno
        have h0 := decTotal_eq_zero_of_not_mem _ k hno
        rw [collect_decTotal] at h0
        omega
      obtain ⟨kc, hkc, hfst⟩ := List.mem_map.mp hkmem
      have hval := entry_eq_decTotal _ kc.1 kc.2 (collect_nodup records)
        (by rw [show (kc.1, kc.2) = kc from rfl]; exact hkc)
      rw [collect_decTotal] at hval
      have : kc = (k, (records.filterMap extractRemovedGroupId).count k) := by
        apply Prod.ext hfst
        rw [← hval, hfst]
      rw [← this]
      exact hkc
  · unfold handleStreamEventGroups
    rw [foldl_decrementPairs]
    apply List.map_congr_left
    intro g _
    rw [collect_decTotal]

/-- Concrete stream batch: three REMOVE records across two groups and one
interleaved INSERT. -/
def demoRecords : List StreamRecord :=
  [ { eventName := "REMOVE", oldImage := some { storyGroupId := some "sg-a" } },
    { eventName := "INSERT", oldImage := none },
    { eventName := "REMOVE", oldImage := some { storyGroupId := some "sg-b" } },
    { eventName := "REMOVE", oldImage := some { storyGroupId := some "sg-a" } } ]

/-- Concrete group table for the stream-batch witness. -/
def demoGroups : List StoryGroup :=
  [ { id := "sg-a", canonicalTitle := "a", canonicalUrl := "u", itemCount := 5,
      firstSeenAt := 0, lastUpdatedAt := 0 },
    { id := "sg-b", canonicalTitle := "b", canonicalUrl := "u", itemCount := 3,
      firstSeenAt := 0, lastUpdatedAt := 0 } ]

/-- Witness for the stream-batch theorem at a concrete interleaved batch. -/
theorem stream_decrements_batched_witness :
    handleStreamEventGroups demoGroups demoRecords
      = demoGroups.map (fun g => { g with itemCount := g.itemCount
          - ((demoRecords.filterMap extractRemovedGroupId).count g.id : Int) }) :=
  (stream_decrements_batched demoRecords demoGroups).2.2.2

/-! ## Source deletion choreography -/

/-- The per-item decrement loop of `markFeedItemsForDeletion` is the pair
fold over the referenced group ids, one unit each. -/
lemma mark_fold_eq : ∀ (targets : List FeedItemRec) (sgTable : List StoryGroup),
    targets.foldl (fun tbl it =>
      if it.storyGroupId == "" then tbl
      else decrementStoryGroupCount tbl it.storyGroupId 1) sgTable
    = ((targets.filterMap (fun it =>
        if it.storyGroupId == "" then none else some it.storyGroupId)).map
          (fun k => ((k, 1) : String × Nat))).foldl
        (fun tbl kc => decrementStoryGroupCount tbl kc.1 (kc.2 : Int)) sgTable
  | [], tbl => rfl
  | it :: targets, tbl => by
    rw [List.foldl_cons, List.filterMap_cons]
    by_cases h : it.storyGroupId == ""
    · simp only [h, if_true]
      exact mark_fold_eq targets tbl
    · simp only [h, Bool.false_eq_true, if_false, List.map_cons, List.foldl_cons,
        Nat.cast_one]
      exact mark_fold_eq targets _

/-- Unit decrements tally to occurrence counts. -/
lemma decTotal_ones (keys : List String) (k : String) :
    decTotal (keys.map (fun k0 => (k0, 1))) k = keys.count k := by
  induction keys with
  | nil => simp [decTotal_nil]
  | cons k0 keys ih =>
    rw [List.map_cons, decTotal_cons, List.count_cons, ih]
    by_cases h : k = k0
    · subst h
      simp
      omega
    · have h1 : (k0 == k) = false := beq_eq_false_iff_ne.mpr (fun he => h he.symm)
      have h2 : (k == k0) = false := beq_eq_false_iff_ne.mpr h
      simp [h1, h2]

/-- C5: deleting a source marks every FeedItem of that source with the
deletion marker and expiry now + 3600 seconds and leaves other items
untouched, decrements each referenced StoryGroup's count by one per marked
item, deletes the Source row, and returns success with the number of items
marked. -/
theorem delete_source_marks_and_decrements (db : CleanupDB) (sourceId : String)
    (now : Nat) :
    ((handleDeleteSourceMutation db sourceId now).1.feedItems
        = db.feedItems.map (fun it =>
            if it.sourceId == sourceId
            then { it with deletedSourceId := some sourceId, expiresAt := now + 3600 }
            else it))
    ∧ ((handleDeleteSourceMutation db sourceId now).1.sgTable
        = db.sgTable.map (fun g => { g with itemCount := g.itemCount
            - (((db.feedItems.filter (fun it => it.sourceId == sourceId)).filterMap
                (fun it => if it.storyGroupId == "" then none
                  else some it.storyGroupId)).count g.id : Int) }))
    ∧ ((handleDeleteSourceMutation db sourceId now).1.sources
        = db.sources.filter (fun s => !(s.id == sourceId)))
    ∧ (handleDeleteSourceMutation db sourceId now).2.success = true
    ∧ (handleDeleteSourceMutation db sourceId now).2.itemsMarked
        = (db.feedItems.filter (fun it => it.sourceId == sourceId)).length := by
  refine ⟨?_, ?_, rfl, rfl, rfl⟩
  · show db.feedItems.map (fun it =>
        if it.sourceId == sourceId
        then { it with deletedSourceId := some sourceId, expiresAt := now + 60 * 60 }
        else it) = _
    norm_num
  · show (db.feedItems.filter (fun it => it.sourceId == sourceId)).foldl
        (fun tbl it =>
          if it.storyGroupId == "" then tbl
          else decrementStoryGroupCount tbl it.storyGroupId 1) db.sgTable = _
    rw [mark_fold_eq, foldl_decrementPairs]
    apply List.map_congr_left
    intro g _
    rw [decTotal_ones]

/-! ## The scheduled deleteMarked sweep -/

/-- With enough fuel, the batches flatten back to the input list. -/
lemma chunks25Fuel_flatten : ∀ (n : Nat) (l : List FeedItemRec), l.length ≤ n →
    (chunks25Fuel n l).flatten = l
  | n, [], _ => by cases n <;> rfl
  | 0, x :: xs, h => by simp at h
  | n + 1, x :: xs, h => by
    have hlen : (xs.drop 24).length ≤ n := by
      rw [List.length_drop]
      simp only [List.length_cons] at h
      omega
    show ((x :: xs.take 24) :: chunks25Fuel n (xs.drop 24)).flatten = x :: xs
    rw [List.flatten_cons, chunks25Fuel_flatten n (xs.drop 24) hlen]
    simp [List.cons_append, List.take_append_drop]

/-- Every batch holds at most 25 rows. -/
lemma chunks25Fuel_le : ∀ (n : Nat) (l b : List FeedItemRec),
    b ∈ chunks25Fuel n l → b.length ≤ 25
  | n, [], b, h => by cases n <;> simp [chunks25Fuel] at h
  | 0, x :: xs, b, h => by simp [chunks25Fuel] at h
  | n + 1, x :: xs, b, h => by
    simp only [chunks25Fuel, List.mem_cons] at h
    rcases h with rfl | h'
    · simp only [List.length_cons, List.length_take]
      omega
    · exact chunks25Fuel_le n (xs.drop 24) b h'

/-- The running deleted counter sums the batch sizes. -/
lemma foldl_add_length : ∀ (batches : List (List FeedItemRec)) (k : Nat),
    batches.foldl (fun c b => c + b.length) k = k + (batches.map List.length).sum
  | [], k => by simp
  | b :: bs, k => by
    rw [List.foldl_cons, foldl_add_length bs (k + b.length)]
    simp [List.map_cons, List.sum_cons]
    omega

/-- Boolean membership distributes over append. -/
lemma contains_append_or {α : Type} [BEq α] (l1 l2 : List α) (a : α) :
    (l1 ++ l2).contains a = (l1.contains a || l2.contains a) := by
  simp [List.contains_eq_any_beq]

/-- Deleting batch after batch removes exactly the rows whose id occurs in
some batch. -/
lemma foldl_filter_batches : ∀ (bs : List (List FeedItemRec)) (tbl : List FeedItemRec),
    bs.foldl (fun tbl batch => tbl.filter
      (fun it => !(batch.map (fun b => b.id)).contains it.id)) tbl
    = tbl.filter (fun it => !((bs.flatten.map (fun b => b.id)).contains it.id))
  | [], tbl => by simp
  | b :: bs, tbl => by
    rw [List.foldl_cons, foldl_filter_batches bs _, List.filter_filter]
    apply List.filter_congr
    intro it _
    rw [List.flatten_cons, List.map_append, contains_append_or]
    cases h1 : (b.map (fun bb => bb.id)).contains it.id <;>
      cases h2 : ((bs.flatten).map (fun bb => bb.id)).contains it.id <;>
        simp [h1, h2]

/-- Every row of a visited page carries the deletion marker. -/
lemma sweepPagesFuel_marked : ∀ (fuel : Nat) (l : List FeedItemRec),
    ∀ p ∈ sweepPagesFuel fuel l, ∀ it ∈ p, hasDeletionMarker it = true
  | _, [], p, hp => by simp [sweepPagesFuel] at hp
  | 0, _ :: _, p, hp => by simp [sweepPagesFuel] at hp
  | fuel + 1, x :: xs, p, hp => by
    simp only [sweepPagesFuel] at hp
    by_cases h1 : (((x :: xs).take SWEEP_PAGE_LIMIT).filter hasDeletionMarker).isEmpty
    · simp [h1] at hp
    · by_cases h2 : ((x :: xs).drop SWEEP_PAGE_LIMIT).isEmpty
      · simp only [h1, h2, Bool.false_eq_true, if_false, if_true, List.mem_singleton] at hp
        subst hp
        intro it hit
        exact (List.mem_filter.mp hit).2
      · simp only [h1, h2, Bool.false_eq_true, if_false, List.mem_cons] at hp
        rcases hp with rfl | hp
        · intro it hit
          exact (List.mem_filter.mp hit).2
        · exact sweepPagesFuel_marked fuel _ p hp

/-- Every row of a visited page comes from the scanned table. -/
lemma sweepPagesFuel_subset : ∀ (fuel : Nat) (l : List FeedItemRec),
    ∀ p ∈ sweepPagesFuel fuel l, ∀ it ∈ p, it ∈ l
  | _, [], p, hp => by simp [sweepPagesFuel] at hp
  | 0, _ :: _, p, hp => by simp [sweepPagesFuel] at hp
  | fuel + 1, x :: xs, p, hp => by
    simp only [sweepPagesFuel] at hp
    by_cases h1 : (((x :: xs).take SWEEP_PAGE_LIMIT).filter hasDeletionMarker).isEmpty
    · simp [h1] at hp
    · by_cases h2 : ((x :: xs).drop SWEEP_PAGE_LIMIT).isEmpty
      · simp only [h1, h2, Bool.false_eq_true, if_false, if_true, List.mem_singleton] at hp
        subst hp
        intro it hit
        exact List.take_subset _ _ (List.mem_filter.mp hit).1
      · simp only [h1, h2, Bool.false_eq_true, if_false, List.mem_cons] at hp
        rcases hp with rfl | hp
        · intro it hit
          exact List.take_subset _ _ (List.mem_filter.mp hit).1
        · intro it hit
          exact List.drop_subset _ _ (sweepPagesFuel_subset fuel _ p hp it hit)

/-- Every visited row carries the deletion marker. -/
lemma sweepVisited_marked (t : List FeedItemRec) :
    ∀ it ∈ sweepVisited t, hasDeletionMarker it = true := by
  intro it hit
  rw [sweepVisited, List.mem_flatten] at hit
  obtain ⟨p, hp, hitp⟩ := hit
  exact sweepPagesFuel_marked _ _ p hp it hitp

/-- Every visited row is a row of the table. -/
lemma sweepVisited_subset (t : List FeedItemRec) :
    ∀ it ∈ sweepVisited t, it ∈ t := by
  intro it hit
  rw [sweepVisited, List.mem_flatten] at hit
  obtain ⟨p, hp, hitp⟩ := hit
  exact sweepPagesFuel_subset _ _ p hp it hitp

/-- Re-chunking the pages and flattening gives back the visited rows. -/
lemma flatten_map_chunks (pages : List (List FeedItemRec)) :
    ((pages.map chunks25).flatten).flatten = pages.flatten := by
  induction pages with
  | nil => rfl
  | cons p ps ih =>
    rw [List.map_cons, List.flatten_cons, List.flatten_append, ih,
      show (chunks25 p).flatten = p from chunks25Fuel_flatten _ _ le_rfl,
      List.flatten_cons]

/-- The issued batches flatten to the visited rows. -/
lemma sweepBatches_flatten (t : List FeedItemRec) :
    (sweepBatches t).flatten = sweepVisited t :=
  flatten_map_chunks _

/-- Every issued batch holds at most 25 rows. -/
lemma sweepBatches_le (t : List FeedItemRec) :
    ∀ b ∈ sweepBatches t, b.length ≤ 25 := by
  intro b hb
  rw [sweepBatches, List.mem_flatten] at hb
  obtain ⟨cp, hcp, hbcp⟩ := hb
  obtain ⟨p, hp, rfl⟩ := List.mem_map.mp hcp
  exact chunks25Fuel_le _ _ b hbcp

/-- A table that fits one scan page is visited exactly at its marked rows:
the single page either holds a marked row (all of them are collected) or
none exists at all, so the early break loses nothing. -/
lemma sweepVisited_of_le (t : List FeedItemRec) (h : t.length ≤ SWEEP_PAGE_LIMIT) :
    sweepVisited t = t.filter hasDeletionMarker := by
  cases t with
  | nil => rfl
  | cons x xs =>
    show (sweepPagesFuel (xs.length + 1) (x :: xs)).flatten = _
    simp only [sweepPagesFuel]
    rw [List.take_of_length_le h, List.drop_eq_nil_of_le h]
    by_cases he : ((x :: xs).filter hasDeletionMarker).isEmpty
    · simp only [he, if_true, List.flatten_nil]
      exact (List.isEmpty_iff.mp he).symm
    · simp [he]

/-- C2 (amended): the scheduled sweep deletes only marker-carrying rows —
natural expiry is never part of its filter — in batches of at most 25, and
returns the number of rows it deleted; its paginated scan aborts at the
first 100-row page without a marked row, so it deletes exactly the marked
rows visited up to that point, and whenever the table fits one 100-row
page it deletes exactly the marker-carrying rows and returns their number. -/
theorem deleteMarked_sweeps_markers (feedItems : List FeedItemRec)
    (hnodup : (feedItems.map (fun it => it.id)).Nodup) :
    (∀ b ∈ sweepBatches feedItems, b.length ≤ 25)
    ∧ (∀ it ∈ sweepVisited feedItems, hasDeletionMarker it = true)
    ∧ (deleteMarkedFeedItems feedItems).2 = (sweepVisited feedItems).length
    ∧ (∀ it ∈ feedItems,
        (it ∈ (deleteMarkedFeedItems feedItems).1 ↔ it ∉ sweepVisited feedItems))
    ∧ (feedItems.length ≤ SWEEP_PAGE_LIMIT →
        (deleteMarkedFeedItems feedItems).1
            = feedItems.filter (fun it => !hasDeletionMarker it)
        ∧ (deleteMarkedFeedItems feedItems).2
            = (feedItems.filter hasDeletionMarker).length) := by
  have hrem : (deleteMarkedFeedItems feedItems).1
      = feedItems.filter
          (fun it => !((sweepVisited feedItems).map (fun b => b.id)).contains it.id) := by
    show (sweepBatches feedItems).foldl
        (fun tbl batch => tbl.filter
          (fun it => !(batch.map (fun b => b.id)).contains it.id)) feedItems = _
    rw [foldl_filter_batches, sweepBatches_flatten]
  have hcount : (deleteMarkedFeedItems feedItems).2 = (sweepVisited feedItems).length := by
    show (sweepBatches feedItems).foldl (fun c batch => c + batch.length) 0 = _
    rw [foldl_add_length, ← List.length_flatten, sweepBatches_flatten]
    simp
  have hid_iff : ∀ it ∈ feedItems,
      (((sweepVisited feedItems).map (fun b => b.id)).contains it.id = true
        ↔ it ∈ sweepVisited feedItems) := by
    intro it hit
    rw [list_contains_iff]
    constructor
    · intro hmem
      obtain ⟨it2, hit2, hid⟩ := List.mem_map.mp hmem
      have heq : it2 = it :=
        List.inj_on_of_nodup_map hnodup (sweepVisited_subset feedItems it2 hit2) hit hid
      exact heq ▸ hit2
    · intro hv
      exact List.mem_map_of_mem _ hv
  refine ⟨sweepBatches_le feedItems, sweepVisited_marked feedItems, hcount, ?_, ?_⟩
  · intro it hit
    rw [hrem, List.mem_filter]
    constructor
    · rintro ⟨-, hP⟩ hv
      rw [(hid_iff it hit).mpr hv] at hP
      simp at hP
    · intro hv
      refine ⟨hit, ?_⟩
      have : ((sweepVisited feedItems).map (fun b => b.id)).contains it.id = false := by
        cases hc : ((sweepVisited feedItems).map (fun b => b.id)).contains it.id with
        | false => rfl
        | true => exact absurd ((hid_iff it hit).mp hc) hv
      rw [this]
      rfl
  · intro hlen
    have hv := sweepVisited_of_le feedItems hlen
    constructor
    · rw [hrem, hv]
      apply List.filter_congr
      intro it hit
      by_cases hm : hasDeletionMarker it
      · have hmem : it.id ∈ (feedItems.filter hasDeletionMarker).map (fun b => b.id) :=
          List.mem_map_of_mem _ (List.mem_filter.mpr ⟨hit, hm⟩)
        rw [(list_contains_iff _ _).mpr hmem]
        simp [hm]
      · have hno : it.id ∉ (feedItems.filter hasDeletionMarker).map (fun b => b.id) := by
          intro hmem
          obtain ⟨it2, hit2, hid⟩ := List.mem_map.mp hmem
          obtain ⟨hit2mem, hm2⟩ := List.mem_filter.mp hit2
          have heq : it2 = it := List.inj_on_of_nodup_map hnodup hit2mem hit hid
          rw [heq] at hm2
          exact hm (by simpa using hm2)
        have hfalse : ((feedItems.filter hasDeletionMarker).map
            (fun b => b.id)).contains it.id = false := by
          cases hc : ((feedItems.filter hasDeletionMarker).map
              (fun b => b.id)).contains it.id with
          | false => rfl
          | true => exact absurd ((list_contains_iff _ _).mp hc) hno
        rw [hfalse]
        simp [hm]
    · rw [hcount, hv]

/-- A marked row, already carrying the deletion marker. -/
def markedRow : FeedItemRec :=
  { id := "fi-m", sourceId := "s1", sourceName := "Sample", externalId := "m1",
    title := "marked", url := "u", content := "c", publishedAt := 0, fetchedAt := 0,
    expiresAt := 9999999999, storyGroupId := "sg-a", titleNormalized := "marked",
    isHidden := false, deletedSourceId := some "s1", deletedFeedId := none }

/-- An unmarked row whose natural expiry lies in the past. -/
def expiredRow : FeedItemRec :=
  { id := "fi-e", sourceId := "s1", sourceName := "Sample", externalId := "e9",
    title := "expired", url := "u", content := "c", publishedAt := 0, fetchedAt := 0,
    expiresAt := 100, storyGroupId := "sg-a", titleNormalized := "expired",
    isHidden := false, deletedSourceId := none, deletedFeedId := none }

/-- Witness for the amended sweep theorem on a one-page two-row table. -/
theorem deleteMarked_sweeps_markers_witness :
    (deleteMarkedFeedItems [markedRow, expiredRow]).1
        = [markedRow, expiredRow].filter (fun it => !hasDeletionMarker it)
    ∧ (deleteMarkedFeedItems [markedRow, expiredRow]).2
        = ([markedRow, expiredRow].filter hasDeletionMarker).length :=
  (deleteMarked_sweeps_markers [markedRow, expiredRow] (by decide)).2.2.2.2 (by decide)

/-- C2 counterexample: an unmarked row past its natural expiry (expiresAt
100, evaluated at a notional now of 1700000000) survives the sweep, which
reports zero deletions — the sweep's filter never consults expiresAt. -/
theorem deleteMarked_ignores_expired_counterexample :
    expiredRow.expiresAt < 1700000000
    ∧ hasDeletionMarker expiredRow = false
    ∧ (deleteMarkedFeedItems [expiredRow]).1 = [expiredRow]
    ∧ (deleteMarkedFeedItems [expiredRow]).2 = 0 := by
  refine ⟨by decide, by decide, by decide, by decide⟩

end NoiseGate
